import Mathlib

/-!
# Verification of the checkpointed BigQuery → HubSpot sync engine

A shallow embedding of `src/hubspot_update.js` (the module exporting
`syncHubSpotPropertiesFromBigQuery`).  The external collaborators are modelled
as oracles: the warehouse paginator is a list of pages (`fetchBigQueryPage`
returning `{rows, nextPageToken}` becomes consuming the next element of the
list), the CRM update call (`updateSingleByObjectType`) is a function
`String → props → Except String Unit` (ok = the awaited promise resolves,
error = it throws, carrying the serialized error text), and the filesystem
(checkpoint file, audit CSV) is carried inside the state.  The JavaScript run
is single-threaded between `await` points, so the effect of a wave dispatched
through `runWithConcurrency` on counters, sets and files is a fold over the
wave's items; `runWithConcurrency`'s scheduling itself is modelled separately
as a small-step relation for the concurrency-bound claim.
-/

/-- A JavaScript scalar as it appears in a BigQuery result row: `null`,
`undefined` (absent key), a string, or an integer. -/
inductive JValue where
  | null
  | undefinedV
  | str (s : String)
  | num (n : Int)
deriving DecidableEq, Repr

/-- JavaScript `String(v)` on the scalars above. -/
def jsToString : JValue → String
  | .null => "null"
  | .undefinedV => "undefined"
  | .str s => s
  | .num n => toString n

/-- JavaScript `String.prototype.trim()`: strip whitespace from both ends
(written structurally over the character list so that it evaluates inside
the kernel; `String.trim` of the standard library is extensionally the same
but is defined by well-founded recursion). -/
def jsTrim (s : String) : String :=
  ⟨((s.data.dropWhile Char.isWhitespace).reverse.dropWhile
      Char.isWhitespace).reverse⟩

/-- A warehouse row: a finite mapping from column name to scalar, modelled as
an association list (JavaScript objects have no duplicate keys). -/
abbrev Row := List (String × JValue)

/-- `r?.[c]`: property access, `undefined` when the key is absent. -/
def rowGet (r : Row) (c : String) : JValue :=
  match r.find? (fun p => p.1 == c) with
  | some p => p.2
  | none => .undefinedV

/-- Lines 170-171: `const id = idRaw === undefined || idRaw === null ? "" :
String(idRaw).trim();` — the row's identifier, `""` when invalid. -/
def extractId (matching_id : String) (r : Row) : String :=
  match rowGet r matching_id with
  | .undefinedV => ""
  | .null => ""
  | v => jsTrim (jsToString v)

/-- Line 136-139: the filter predicate of `clean` — `undefined`/`null` are
always dropped; with `dropBlanks` a value is also dropped when
`String(v).trim()` is empty. -/
def keepValue (dropBlanks : Bool) (v : JValue) : Bool :=
  match v with
  | .undefinedV => false
  | .null => false
  | _ => if dropBlanks then jsTrim (jsToString v) != "" else true

/-- Lines 135-142: `Object.fromEntries(Object.entries(obj).filter(...))`.
The input association list comes from a JavaScript object, so its keys are
distinct and `fromEntries ∘ filter` keeps exactly the filtered entries. -/
def clean (dropBlanks : Bool) (obj : List (String × JValue)) :
    List (String × JValue) :=
  obj.filter (fun p => keepValue dropBlanks p.2)

/-- The `property`/`column_name` shape after validation: a single
property ← column pair, or a multi-property mapping table. -/
inductive PropertySpec where
  | single (property : String) (columnName : String)
  | multi (pairs : List (String × String))
deriving DecidableEq, Repr

/-- The validated configuration of one run (the fields of the options object
that drive the core loop; clients, paths and the SQL text are abstracted to
the oracles and to presence flags). -/
structure SyncConfig where
  propSpec : PropertySpec
  matching_id : String
  apply : Bool
  updateBatchSize : Nat
  dropBlanks : Bool
  skipAlreadyProcessed : Bool
  hasCheckpointPath : Bool
  hasOutputCsv : Bool
deriving DecidableEq, Repr

/-- Lines 180-187: the property mapping a row produces (before the
emptiness check). -/
def mapProps (cfg : SyncConfig) (r : Row) : List (String × JValue) :=
  match cfg.propSpec with
  | .single property columnName =>
      clean cfg.dropBlanks [(property, rowGet r columnName)]
  | .multi pairs =>
      clean cfg.dropBlanks (pairs.map (fun pc => (pc.1, rowGet r pc.2)))

/-- Line 195: an element of `batchUpdates`. -/
structure PendingUpdate where
  id : String
  properties : List (String × JValue)
deriving DecidableEq, Repr

/-- One row of the audit CSV (`matchVal, status, properties_json, error`);
`JSON.stringify` of the properties is kept structured. -/
structure AuditRow where
  matchVal : String
  status : String
  properties_json : List (String × JValue)
  error : String
deriving DecidableEq, Repr

/-- Line 247: an element of the `errors` array of the summary. -/
structure ErrEntry where
  matchVal : String
  error : String
  properties : List (String × JValue)
deriving DecidableEq, Repr

/-- The mutable state of a run: the in-memory `processed` set (a JavaScript
`Set`, modelled as a membership list in insertion order), the checkpoint
file's contents, the counters, the `errors` array and the audit CSV file's
rows. -/
structure SyncState where
  processed : List String
  ckptFile : List String
  fetched : Nat
  attempted : Nat
  updated : Nat
  skipped : Nat
  errors : List ErrEntry
  csv : List AuditRow
deriving DecidableEq, Repr

/-- `Set.add`: append the element unless already present. -/
def addOnce (l : List String) (x : String) : List String :=
  if x ∈ l then l else l ++ [x]

/-- Lines 56-61 `saveCheckpoint`: overwrite the checkpoint file with the full
processed set (a no-op when `checkpointPath` is falsy). -/
def saveCheckpoint (cfg : SyncConfig) (s : SyncState) : SyncState :=
  if cfg.hasCheckpointPath then { s with ckptFile := s.processed } else s

/-- Lines 169-196, one iteration of `for (const r of rows)`: resolve the
identifier, skip blanks, skip already-processed identifiers, discard
blank-only mappings (marking them processed), otherwise push a pending
update onto `batchUpdates`. -/
def scanRow (cfg : SyncConfig) (acc : SyncState × List PendingUpdate)
    (r : Row) : SyncState × List PendingUpdate :=
  let s := acc.1
  let id := extractId cfg.matching_id r
  if id = "" then acc
  else if cfg.skipAlreadyProcessed ∧ id ∈ s.processed then
    ({ s with skipped := s.skipped + 1 }, acc.2)
  else
    let props := mapProps cfg r
    if props = [] then
      ({ s with skipped := s.skipped + 1,
                processed := addOnce s.processed id }, acc.2)
    else
      (s, acc.2 ++ [⟨id, props⟩])

/-- The whole `for (const r of rows)` loop of lines 169-196. -/
def scanRows (cfg : SyncConfig) (rows : List Row)
    (acc : SyncState × List PendingUpdate) : SyncState × List PendingUpdate :=
  rows.foldl (scanRow cfg) acc

/-- The CRM update oracle: the observable outcome of
`updateSingleByObjectType` for a given identifier and property mapping. -/
abbrev UpdateFn := String → List (String × JValue) → Except String Unit

/-- Lines 228-259, the worker body for one item `w` in apply mode:
`totalAttempted += 1`, attempt the update, record `UPDATED` or `ERROR`
(into the wave's CSV row buffer) and add the identifier to `processed`
in either case. -/
def applyItem (f : UpdateFn) (s : SyncState) (w : PendingUpdate)
    (csvAcc : List AuditRow) : SyncState × List AuditRow :=
  let s1 := { s with attempted := s.attempted + 1 }
  match f w.id w.properties with
  | .ok _ =>
      ({ s1 with updated := s1.updated + 1,
                 processed := addOnce s1.processed w.id },
       csvAcc ++ [⟨w.id, "UPDATED", w.properties, ""⟩])
  | .error e =>
      ({ s1 with errors := s1.errors ++ [⟨w.id, e, w.properties⟩],
                 processed := addOnce s1.processed w.id },
       csvAcc ++ [⟨w.id, "ERROR", w.properties, e⟩])

/-- Lines 226-267, apply mode for one wave: run every item's worker body
(the fold is the single-threaded effect of `runWithConcurrency`), flush the
wave's CSV rows when an output path is set, then `saveCheckpoint`. -/
def applyWave (cfg : SyncConfig) (f : UpdateFn) (s : SyncState)
    (wave : List PendingUpdate) : SyncState :=
  let r := wave.foldl
    (fun (acc : SyncState × List AuditRow) w => applyItem f acc.1 w acc.2)
    (s, [])
  let s2 := if cfg.hasOutputCsv ∧ r.2 ≠ [] then
      { r.1 with csv := r.1.csv ++ r.2 } else r.1
  saveCheckpoint cfg s2

/-- Lines 206-220, the dry-run loop body for one item: append a `DRY_RUN`
CSV row (when an output path is set) and mark the identifier processed. -/
def dryItem (cfg : SyncConfig) (st : SyncState) (w : PendingUpdate) :
    SyncState :=
  let st1 := if cfg.hasOutputCsv then
      { st with csv := st.csv ++ [⟨w.id, "DRY_RUN", w.properties, ""⟩] }
    else st
  { st1 with processed := addOnce st1.processed w.id }

/-- Lines 204-223, dry-run mode for one wave: `totalAttempted +=
wave.length`, run the loop body on every item, then `saveCheckpoint`. -/
def dryWave (cfg : SyncConfig) (s : SyncState)
    (wave : List PendingUpdate) : SyncState :=
  saveCheckpoint cfg
    (wave.foldl (dryItem cfg) { s with attempted := s.attempted + wave.length })

/-- One wave of lines 199-272: dry-run or apply. -/
def processWave (cfg : SyncConfig) (f : UpdateFn) (s : SyncState)
    (wave : List PendingUpdate) : SyncState :=
  if cfg.apply then applyWave cfg f s wave else dryWave cfg s wave

/-- Structural worker for `chunks`: the fuel bounds the number of chunks
(one unit per chunk suffices since every chunk consumes at least one
element), keeping the recursion kernel-reducible. -/
def chunksFuel (b : Nat) : Nat → List PendingUpdate → List (List PendingUpdate)
  | _, [] => []
  | 0, l => [l]
  | fuel + 1, x :: xs =>
      (x :: xs.take (b - 1)) :: chunksFuel b fuel (xs.drop (b - 1))

/-- Line 199-200: `batchUpdates.slice(i, i + updateBatchSize)` for
`i = 0, b, 2b, …` — split a list into consecutive chunks of size `b`
(the source is only run with `updateBatchSize ≥ 1`). -/
def chunks (b : Nat) (l : List PendingUpdate) : List (List PendingUpdate) :=
  chunksFuel b l.length l

/-- Lines 158-272 without the paging control: scan one page's rows into
`batchUpdates`, then process it in waves of `updateBatchSize`. -/
def processPage (cfg : SyncConfig) (f : UpdateFn) (s : SyncState)
    (rows : List Row) : SyncState :=
  let r := scanRows cfg rows (s, [])
  (chunks cfg.updateBatchSize r.2).foldl (processWave cfg f) r.1

/-- One response of `fetchBigQueryPage` (line 64-70): the rows and
`resp?.pageToken || null`. -/
structure Page where
  rows : List Row
  tok : Option String
deriving DecidableEq, Repr

/-- Lines 159-275, the `while (true)` page loop: fetch (consume the next
page of the oracle stream), count it, stop on an empty page, otherwise
process it and stop when the token is null.  A `[]` stream means the oracle
yields no further responses; the source would block there, so the model
returns the state reached. -/
def pageLoop (cfg : SyncConfig) (f : UpdateFn) :
    List Page → SyncState → SyncState
  | [], s => s
  | p :: rest, s =>
    let s1 := { s with fetched := s.fetched + p.rows.length }
    if p.rows.length = 0 then s1
    else
      let s2 := processPage cfg f s1 p.rows
      match p.tok with
      | none => s2
      | some _ => pageLoop cfg f rest s2

/-- The state at line 147-152, after `loadCheckpoint`: the in-memory set and
the checkpoint file both hold the persisted identifiers, counters zero. -/
def initState (init : List String) : SyncState :=
  { processed := init, ckptFile := init, fetched := 0, attempted := 0,
    updated := 0, skipped := 0, errors := [], csv := [] }

/-- A whole run after successful validation and query submission. -/
def runSyncCore (cfg : SyncConfig) (f : UpdateFn) (init : List String)
    (pages : List Page) : SyncState :=
  pageLoop cfg f pages (initState init)

/-- The rows the page loop actually consumes from a page stream: every row
of each processed page, stopping at an empty page or a null token. -/
def consumedRows : List Page → List Row
  | [] => []
  | p :: rest =>
    if p.rows.length = 0 then []
    else match p.tok with
      | none => p.rows
      | some _ => p.rows ++ consumedRows rest

/-- The dynamic `property` argument before validation: falsy
(undefined/null/empty string), a non-empty string, or an object (line 122:
`typeof property === "object" && property !== null`; an empty object is
truthy). -/
inductive PropertyArg where
  | missing
  | str (s : String)
  | obj (pairs : List (String × String))
deriving DecidableEq, Repr

/-- JavaScript truthiness of the `property` argument. -/
def propertyTruthy : PropertyArg → Bool
  | .missing => false
  | .str s => s != ""
  | .obj _ => true

/-- The raw options object of `syncHubSpotPropertiesFromBigQuery` (lines
85-113); string arguments use `""` for a falsy value, the two client
arguments are presence flags. -/
structure RawConfig where
  object : String
  sql : String
  property : PropertyArg
  column_name : String
  matching_id : String
  matchKeyType : String
  hasHubspotClient : Bool
  hasBigqueryClient : Bool
  apply : Bool
  updateBatchSize : Nat
  dropBlanks : Bool
  skipAlreadyProcessed : Bool
  hasCheckpointPath : Bool
  hasOutputCsv : Bool
deriving DecidableEq, Repr

/-- The errors `syncHubSpotPropertiesFromBigQuery` can propagate in the
model: a configuration `throw` of lines 114-124, a rejected
`createQueryJob` (line 145), or a rejected `getQueryResults` inside
`fetchBigQueryPage` (line 68), which the `while` loop does not catch. -/
inductive SyncError where
  | config (msg : String)
  | querySubmit (msg : String)
  | pageFetch (msg : String)
deriving DecidableEq, Repr

/-- Lines 114-124: the fail-fast validation, in source order. -/
def validateConfig (raw : RawConfig) : Except SyncError SyncConfig :=
  if raw.object = "" then
    .error (.config "Missing required arg: object")
  else if raw.sql = "" then
    .error (.config "Missing required arg: sql")
  else if propertyTruthy raw.property = false then
    .error (.config "Missing required arg: property")
  else if raw.matching_id = "" then
    .error (.config "Missing required arg: matching_id")
  else if raw.hasHubspotClient = false then
    .error (.config "Missing required arg: hubspotClient")
  else if raw.hasBigqueryClient = false then
    .error (.config "Missing required arg: bigqueryClient")
  else if raw.matchKeyType ≠ "id" then
    .error (.config "This version expects matchKeyType=id for speed + batching.")
  else
    match raw.property with
    | .obj pairs =>
        .ok { propSpec := .multi pairs, matching_id := raw.matching_id,
              apply := raw.apply, updateBatchSize := raw.updateBatchSize,
              dropBlanks := raw.dropBlanks,
              skipAlreadyProcessed := raw.skipAlreadyProcessed,
              hasCheckpointPath := raw.hasCheckpointPath,
              hasOutputCsv := raw.hasOutputCsv }
    | .str p =>
        if raw.column_name = "" then
          .error (.config "Missing required arg: column_name (when property is a string)")
        else
          .ok { propSpec := .single p raw.column_name,
                matching_id := raw.matching_id,
                apply := raw.apply, updateBatchSize := raw.updateBatchSize,
                dropBlanks := raw.dropBlanks,
                skipAlreadyProcessed := raw.skipAlreadyProcessed,
                hasCheckpointPath := raw.hasCheckpointPath,
                hasOutputCsv := raw.hasOutputCsv }
    | .missing => .error (.config "Missing required arg: property")

/-- The page loop over a fallible fetch oracle: a rejected
`job.getQueryResults` is not caught anywhere in the function, so it
propagates. -/
def pageLoopE (cfg : SyncConfig) (f : UpdateFn) :
    List (Except String Page) → SyncState → Except SyncError SyncState
  | [], s => .ok s
  | .error e :: _, _ => .error (.pageFetch e)
  | .ok p :: rest, s =>
    let s1 := { s with fetched := s.fetched + p.rows.length }
    if p.rows.length = 0 then .ok s1
    else
      let s2 := processPage cfg f s1 p.rows
      match p.tok with
      | none => .ok s2
      | some _ => pageLoopE cfg f rest s2

/-- The whole exported function: validate (throwing configuration errors),
submit the query (`createQueryJob`, whose rejection propagates), then run
the page loop; on success return the summary state. -/
def syncHubSpotPropertiesFromBigQuery (raw : RawConfig)
    (querySubmit : Except String Unit) (f : UpdateFn) (init : List String)
    (pages : List (Except String Page)) : Except SyncError SyncState :=
  match validateConfig raw with
  | .error e => .error e
  | .ok cfg =>
    match querySubmit with
    | .error e => .error (.querySubmit e)
    | .ok _ => pageLoopE cfg f pages (initState init)

/-!
## `runWithConcurrency` as a small-step scheduler (lines 30-40)

Each of the `concurrency` workers loops: atomically read-and-increment the
shared `idx` (JavaScript is single-threaded between awaits, so the
`idx++` and the bound check are one step), break when past the end,
otherwise `await workerFn(items[i], i)` — the call is then in flight until
its completion step, after which the worker loops again. -/

/-- A worker of `runWithConcurrency`: ready to pull the next index, holding
an in-flight `workerFn` call, or past the end of `items`. -/
inductive WStatus where
  | idle
  | inflight
  | done
deriving DecidableEq, Repr

/-- The scheduler state: the shared `idx` and each worker's status. -/
structure PoolState where
  idx : Nat
  workers : List WStatus
deriving DecidableEq, Repr

/-- Line 32: `Array.from({length: concurrency}, …)` — all workers start at
the top of their loop, `idx = 0`. -/
def poolInit (concurrency : Nat) : PoolState :=
  ⟨0, List.replicate concurrency .idle⟩

/-- The number of `workerFn` calls currently in flight. -/
def inFlight (s : PoolState) : Nat := s.workers.count .inflight

/-- One scheduler step over `n = items.length`: an idle worker pulls an
index and starts a call (`pick`) or breaks (`exhaust`); an in-flight call
completes and its worker returns to the top of its loop (`complete`). -/
inductive PoolStep (n : Nat) : PoolState → PoolState → Prop
  | pick (s : PoolState) (i : Fin s.workers.length)
      (h : s.workers.get i = .idle) (hlt : s.idx < n) :
      PoolStep n s ⟨s.idx + 1, s.workers.set i .inflight⟩
  | exhaust (s : PoolState) (i : Fin s.workers.length)
      (h : s.workers.get i = .idle) (hge : n ≤ s.idx) :
      PoolStep n s ⟨s.idx, s.workers.set i .done⟩
  | complete (s : PoolState) (i : Fin s.workers.length)
      (h : s.workers.get i = .inflight) :
      PoolStep n s ⟨s.idx, s.workers.set i .idle⟩

/-- Adding every identifier of a wave to the processed set. -/
def addIds (l : List String) (wave : List PendingUpdate) : List String :=
  wave.foldl (fun acc w => addOnce acc w.id) l

/-- The audit CSV row the worker body produces for one item. -/
def outcomeRow (f : UpdateFn) (w : PendingUpdate) : AuditRow :=
  match f w.id w.properties with
  | .ok _ => ⟨w.id, "UPDATED", w.properties, ""⟩
  | .error e => ⟨w.id, "ERROR", w.properties, e⟩

/-- The summary error entry the worker body produces for one item. -/
def outcomeErr (f : UpdateFn) (w : PendingUpdate) : Option ErrEntry :=
  match f w.id w.properties with
  | .ok _ => none
  | .error e => some ⟨w.id, e, w.properties⟩

/-- Whether the oracle resolves for one item. -/
def okItem (f : UpdateFn) (w : PendingUpdate) : Bool :=
  match f w.id w.properties with
  | .ok _ => true
  | .error _ => false

/-- Every row of `rows` with a non-blank identifier is covered: its
identifier is already in `P`, or some row up to and including it carries the
same identifier and maps to an empty (blank-only) property set. -/
def coveredBy (cfg : SyncConfig) (P : List String) (rows : List Row) : Prop :=
  ∀ (pre : List Row) (r : Row) (post : List Row), rows = pre ++ r :: post →
    extractId cfg.matching_id r ≠ "" →
    extractId cfg.matching_id r ∈ P ∨
    ∃ r0 ∈ pre ++ [r],
      extractId cfg.matching_id r0 = extractId cfg.matching_id r ∧
      mapProps cfg r0 = []

/-- An update oracle whose calls always resolve. -/
def fOk : UpdateFn := fun _ _ => Except.ok ()

/-- A one-property configuration (`property = "p"`, `column_name = "c"`,
`matching_id = "id"`) in apply mode with defaults. -/
def cfgEx : SyncConfig :=
  { propSpec := .single "p" "c", matching_id := "id", apply := true,
    updateBatchSize := 500, dropBlanks := true, skipAlreadyProcessed := true,
    hasCheckpointPath := true, hasOutputCsv := true }

/-- A row with identifier "1" and a null source column (blank-only). -/
def rowBlank : Row := [("id", JValue.str "1"), ("c", JValue.null)]

/-- A row with identifier "1" and a non-blank source value. -/
def rowDup : Row := [("id", JValue.str "1"), ("c", JValue.str "x")]

/-- A single page holding the blank-only row, with a null token. -/
def pagesLag : List Page := [⟨[rowBlank], none⟩]

/-- A single page holding the same non-blank row twice, null token. -/
def pagesDup : List Page := [⟨[rowDup, rowDup], none⟩]

/-- An update oracle that throws exactly for identifier "2". -/
def fFail2 : UpdateFn := fun id _ =>
  if id == "2" then Except.error "boom" else Except.ok ()

/-- A fully valid raw configuration (single-property mode). -/
def rawEx : RawConfig :=
  { object := "contacts", sql := "SELECT 1", property := .str "p",
    column_name := "c", matching_id := "id", matchKeyType := "id",
    hasHubspotClient := true, hasBigqueryClient := true, apply := true,
    updateBatchSize := 500, dropBlanks := true, skipAlreadyProcessed := true,
    hasCheckpointPath := true, hasOutputCsv := true }

/-! ## Basic lemmas about the set and chunking helpers -/

theorem mem_addOnce {l : List String} {x y : String} :
    y ∈ addOnce l x ↔ y ∈ l ∨ y = x := by
  unfold addOnce
  split
  · rename_i h
    constructor
    · exact Or.inl
    · rintro (hy | rfl)
      · exact hy
      · exact h
  · simp [List.mem_append]

theorem addOnce_subset {l : List String} {x : String} : l ⊆ addOnce l x := by
  intro y hy
  exact mem_addOnce.mpr (Or.inl hy)

theorem mem_addOnce_self {l : List String} {x : String} : x ∈ addOnce l x :=
  mem_addOnce.mpr (Or.inr rfl)


theorem addIds_nil {l : List String} : addIds l [] = l := rfl

theorem addIds_cons {l : List String} {w : PendingUpdate}
    {ws : List PendingUpdate} :
    addIds l (w :: ws) = addIds (addOnce l w.id) ws := rfl

theorem mem_addIds {l : List String} {ws : List PendingUpdate} {x : String} :
    x ∈ addIds l ws ↔ x ∈ l ∨ ∃ w ∈ ws, w.id = x := by
  induction ws generalizing l with
  | nil => simp [addIds_nil]
  | cons w ws ih =>
    rw [addIds_cons, ih]
    simp only [mem_addOnce, List.mem_cons]
    constructor
    · rintro ((hl | rfl) | ⟨w2, hw2, rfl⟩)
      · exact Or.inl hl
      · exact Or.inr ⟨w, Or.inl rfl, rfl⟩
      · exact Or.inr ⟨w2, Or.inr hw2, rfl⟩
    · rintro (hl | ⟨w2, (rfl | hw2), rfl⟩)
      · exact Or.inl (Or.inl hl)
      · exact Or.inl (Or.inr rfl)
      · exact Or.inr ⟨w2, hw2, rfl⟩

theorem addIds_subset {l : List String} {ws : List PendingUpdate} :
    l ⊆ addIds l ws := fun _ hx => mem_addIds.mpr (Or.inl hx)

theorem addIds_append {l : List String} {ws vs : List PendingUpdate} :
    addIds l (ws ++ vs) = addIds (addIds l ws) vs := by
  unfold addIds
  exact List.foldl_append ..

theorem chunksFuel_congr {b : Nat} :
    ∀ (f1 f2 : Nat) (l : List PendingUpdate), l.length ≤ f1 →
      l.length ≤ f2 → chunksFuel b f1 l = chunksFuel b f2 l := by
  intro f1
  induction f1 with
  | zero =>
    intro f2 l h1 _
    rw [List.length_eq_zero.mp (Nat.le_zero.mp h1)]
    cases f2 <;> rfl
  | succ g1 ih =>
    intro f2 l h1 h2
    cases l with
    | nil => cases f2 <;> rfl
    | cons x xs =>
      rw [List.length_cons] at h1 h2
      cases f2 with
      | zero => exact absurd h2 (by omega)
      | succ g2 =>
        unfold chunksFuel
        congr 1
        exact ih g2 (xs.drop (b - 1))
          (by rw [List.length_drop]; omega)
          (by rw [List.length_drop]; omega)

theorem chunks_nil {b : Nat} : chunks b [] = [] := rfl

theorem chunks_cons {b : Nat} (x : PendingUpdate) (xs : List PendingUpdate) :
    chunks b (x :: xs) =
      (x :: xs.take (b - 1)) :: chunks b (xs.drop (b - 1)) := by
  have hL : chunks b (x :: xs) =
      (x :: xs.take (b - 1)) :: chunksFuel b xs.length (xs.drop (b - 1)) := by
    unfold chunks
    rw [List.length_cons]
    rfl
  rw [hL]
  unfold chunks
  congr 1
  exact chunksFuel_congr xs.length (xs.drop (b - 1)).length (xs.drop (b - 1))
    (by rw [List.length_drop]; omega)
    (Nat.le_refl (xs.drop (b - 1)).length)

theorem chunks_join {b : Nat} : ∀ l : List PendingUpdate,
    (chunks b l).flatten = l := by
  have key : ∀ (n : Nat) (l : List PendingUpdate), l.length ≤ n →
      (chunks b l).flatten = l := by
    intro n
    induction n with
    | zero =>
      intro l h
      rw [List.length_eq_zero.mp (Nat.le_zero.mp h)]
      rfl
    | succ m ih =>
      intro l h
      cases l with
      | nil => rfl
      | cons x xs =>
        rw [chunks_cons, List.flatten_cons,
            ih (xs.drop (b - 1))
              (by rw [List.length_drop]; rw [List.length_cons] at h; omega)]
        simp only [List.cons_append, List.take_append_drop]
  intro l
  exact key l.length l (Nat.le_refl _)

theorem chunks_eq_nil {b : Nat} {l : List PendingUpdate} :
    chunks b l = [] ↔ l = [] := by
  cases l with
  | nil => simp [chunks_nil]
  | cons x xs => simp [chunks_cons]

theorem exists_chunk_of_mem {b : Nat} {l : List PendingUpdate}
    {w : PendingUpdate} (hw : w ∈ l) : ∃ c ∈ chunks b l, w ∈ c := by
  have h := chunks_join (b := b) l
  rw [← h] at hw
  exact List.mem_flatten.mp hw

/-! ## Closed forms for the wave dispatch -/




theorem applyItem_eq (f : UpdateFn) (s : SyncState) (w : PendingUpdate)
    (csvAcc : List AuditRow) :
    applyItem f s w csvAcc =
      ({ s with attempted := s.attempted + 1,
                updated := s.updated + (if okItem f w then 1 else 0),
                errors := s.errors ++ (outcomeErr f w).toList,
                processed := addOnce s.processed w.id },
       csvAcc ++ [outcomeRow f w]) := by
  unfold applyItem okItem outcomeErr outcomeRow
  cases h : f w.id w.properties <;> simp

theorem applyFold_eq (f : UpdateFn) :
    ∀ (wave : List PendingUpdate) (s : SyncState) (csvAcc : List AuditRow),
    wave.foldl (fun acc w => applyItem f acc.1 w acc.2) (s, csvAcc) =
      ({ s with attempted := s.attempted + wave.length,
                updated := s.updated + wave.countP (okItem f),
                errors := s.errors ++ wave.filterMap (outcomeErr f),
                processed := addIds s.processed wave },
       csvAcc ++ wave.map (outcomeRow f)) := by
  intro wave
  induction wave with
  | nil => intro s csvAcc; simp [addIds_nil]
  | cons w ws ih =>
    intro s csvAcc
    rw [List.foldl_cons, applyItem_eq, ih]
    rw [List.countP_cons, List.filterMap_cons, List.map_cons]
    cases h : f w.id w.properties <;>
      simp [okItem, outcomeErr, h, addIds_cons, List.append_assoc] <;>
      omega

theorem applyWave_eq (cfg : SyncConfig) (f : UpdateFn) (s : SyncState)
    (wave : List PendingUpdate) :
    applyWave cfg f s wave =
      saveCheckpoint cfg
        { s with attempted := s.attempted + wave.length,
                 updated := s.updated + wave.countP (okItem f),
                 errors := s.errors ++ wave.filterMap (outcomeErr f),
                 processed := addIds s.processed wave,
                 csv := s.csv ++
                   (if cfg.hasOutputCsv ∧ wave ≠ [] then
                      wave.map (outcomeRow f) else []) } := by
  unfold applyWave
  rw [applyFold_eq]
  cases wave with
  | nil => simp [addIds_nil]
  | cons w ws => simp only [List.nil_append]; split <;> rename_i h <;> simp_all

theorem dryItem_eq (cfg : SyncConfig) (st : SyncState) (w : PendingUpdate) :
    dryItem cfg st w =
      { st with processed := addOnce st.processed w.id,
                csv := st.csv ++
                  (if cfg.hasOutputCsv then
                     [⟨w.id, "DRY_RUN", w.properties, ""⟩] else []) } := by
  unfold dryItem
  cases h : cfg.hasOutputCsv <;> simp [h]

theorem dryFold_eq (cfg : SyncConfig) :
    ∀ (ws : List PendingUpdate) (st : SyncState),
    ws.foldl (dryItem cfg) st =
      { st with processed := addIds st.processed ws,
                csv := st.csv ++
                  (if cfg.hasOutputCsv then
                     ws.map (fun w => ⟨w.id, "DRY_RUN", w.properties, ""⟩)
                   else []) } := by
  intro ws
  induction ws with
  | nil => intro st; simp [addIds_nil]
  | cons w ws ih =>
    intro st
    rw [List.foldl_cons, dryItem_eq, ih]
    cases h : cfg.hasOutputCsv <;> simp [h, addIds_cons, List.append_assoc]

theorem dryWave_eq (cfg : SyncConfig) (s : SyncState)
    (wave : List PendingUpdate) :
    dryWave cfg s wave =
      saveCheckpoint cfg
        { s with attempted := s.attempted + wave.length,
                 processed := addIds s.processed wave,
                 csv := s.csv ++
                   (if cfg.hasOutputCsv then
                      wave.map (fun w => ⟨w.id, "DRY_RUN", w.properties, ""⟩)
                    else []) } := by
  unfold dryWave
  exact congrArg (saveCheckpoint cfg)
    (dryFold_eq cfg wave { s with attempted := s.attempted + wave.length })

/-! ## Frame and monotonicity lemmas for the scan and the waves -/

theorem saveCheckpoint_processed (cfg : SyncConfig) (s : SyncState) :
    (saveCheckpoint cfg s).processed = s.processed := by
  unfold saveCheckpoint; split <;> rfl

theorem saveCheckpoint_frame (cfg : SyncConfig) (s : SyncState) :
    (saveCheckpoint cfg s).fetched = s.fetched ∧
    (saveCheckpoint cfg s).attempted = s.attempted ∧
    (saveCheckpoint cfg s).updated = s.updated ∧
    (saveCheckpoint cfg s).skipped = s.skipped ∧
    (saveCheckpoint cfg s).errors = s.errors ∧
    (saveCheckpoint cfg s).csv = s.csv := by
  unfold saveCheckpoint; split <;> exact ⟨rfl, rfl, rfl, rfl, rfl, rfl⟩

theorem saveCheckpoint_ckptFile (cfg : SyncConfig) (s : SyncState)
    (h : cfg.hasCheckpointPath = true) :
    (saveCheckpoint cfg s).ckptFile = s.processed := by
  unfold saveCheckpoint; rw [h]; simp

theorem scanRow_frame (cfg : SyncConfig) (acc : SyncState × List PendingUpdate)
    (r : Row) :
    (scanRow cfg acc r).1.fetched = acc.1.fetched ∧
    (scanRow cfg acc r).1.attempted = acc.1.attempted ∧
    (scanRow cfg acc r).1.updated = acc.1.updated ∧
    (scanRow cfg acc r).1.errors = acc.1.errors ∧
    (scanRow cfg acc r).1.csv = acc.1.csv ∧
    (scanRow cfg acc r).1.ckptFile = acc.1.ckptFile := by
  unfold scanRow
  dsimp only
  split_ifs <;> simp

theorem scanRows_frame (cfg : SyncConfig) (rows : List Row) :
    ∀ acc : SyncState × List PendingUpdate,
    (scanRows cfg rows acc).1.fetched = acc.1.fetched ∧
    (scanRows cfg rows acc).1.attempted = acc.1.attempted ∧
    (scanRows cfg rows acc).1.updated = acc.1.updated ∧
    (scanRows cfg rows acc).1.errors = acc.1.errors ∧
    (scanRows cfg rows acc).1.csv = acc.1.csv ∧
    (scanRows cfg rows acc).1.ckptFile = acc.1.ckptFile := by
  induction rows with
  | nil => intro acc; exact ⟨rfl, rfl, rfl, rfl, rfl, rfl⟩
  | cons r rows ih =>
    intro acc
    have h1 := scanRow_frame cfg acc r
    have h2 := ih (scanRow cfg acc r)
    unfold scanRows at h2 ⊢
    rw [List.foldl_cons]
    obtain ⟨a1, a2, a3, a4, a5, a6⟩ := h1
    obtain ⟨b1, b2, b3, b4, b5, b6⟩ := h2
    exact ⟨b1.trans a1, b2.trans a2, b3.trans a3, b4.trans a4,
           b5.trans a5, b6.trans a6⟩

theorem scanRow_processed_mono (cfg : SyncConfig)
    (acc : SyncState × List PendingUpdate) (r : Row) :
    acc.1.processed ⊆ (scanRow cfg acc r).1.processed := by
  unfold scanRow
  dsimp only
  split_ifs <;> first
    | exact List.Subset.refl _
    | exact addOnce_subset

theorem scanRows_processed_mono (cfg : SyncConfig) (rows : List Row) :
    ∀ acc : SyncState × List PendingUpdate,
    acc.1.processed ⊆ (scanRows cfg rows acc).1.processed := by
  induction rows with
  | nil => intro acc; exact List.Subset.refl _
  | cons r rows ih =>
    intro acc
    have h1 := scanRow_processed_mono cfg acc r
    have h2 := ih (scanRow cfg acc r)
    unfold scanRows at h2 ⊢
    rw [List.foldl_cons]
    exact h1.trans h2

theorem scanRows_append (cfg : SyncConfig) (xs ys : List Row)
    (acc : SyncState × List PendingUpdate) :
    scanRows cfg (xs ++ ys) acc = scanRows cfg ys (scanRows cfg xs acc) := by
  unfold scanRows
  exact List.foldl_append ..

theorem scanRow_batch (cfg : SyncConfig) (s : SyncState)
    (b : List PendingUpdate) (r : Row) :
    scanRow cfg (s, b) r =
      ((scanRow cfg (s, []) r).1, b ++ (scanRow cfg (s, []) r).2) := by
  unfold scanRow
  dsimp only
  split_ifs <;> simp

theorem scanRows_batch (cfg : SyncConfig) (rows : List Row) :
    ∀ (s : SyncState) (b : List PendingUpdate),
    scanRows cfg rows (s, b) =
      ((scanRows cfg rows (s, [])).1, b ++ (scanRows cfg rows (s, [])).2) := by
  induction rows with
  | nil => intro s b; simp [scanRows]
  | cons r rows ih =>
    intro s b
    unfold scanRows
    rw [List.foldl_cons, List.foldl_cons]
    rw [scanRow_batch cfg s b r]
    have hL := ih (scanRow cfg (s, []) r).1 (b ++ (scanRow cfg (s, []) r).2)
    have hR := ih (scanRow cfg (s, []) r).1 (scanRow cfg (s, []) r).2
    unfold scanRows at hL hR
    have hR2 : List.foldl (scanRow cfg) (scanRow cfg (s, []) r) rows =
        ((List.foldl (scanRow cfg) ((scanRow cfg (s, []) r).1, []) rows).1,
         (scanRow cfg (s, []) r).2 ++
           (List.foldl (scanRow cfg) ((scanRow cfg (s, []) r).1, []) rows).2) := hR
    rw [hL, hR2]
    simp [List.append_assoc]

/-! ## Branch equations for one scanned row -/

theorem scanRow_blank (cfg : SyncConfig) (s : SyncState)
    (b : List PendingUpdate) (r : Row)
    (hid : extractId cfg.matching_id r = "") :
    scanRow cfg (s, b) r = (s, b) := by
  unfold scanRow
  dsimp only
  rw [if_pos hid]

theorem scanRow_skip (cfg : SyncConfig) (s : SyncState)
    (b : List PendingUpdate) (r : Row)
    (hid : extractId cfg.matching_id r ≠ "")
    (h : cfg.skipAlreadyProcessed = true ∧
         extractId cfg.matching_id r ∈ s.processed) :
    scanRow cfg (s, b) r = ({ s with skipped := s.skipped + 1 }, b) := by
  unfold scanRow
  dsimp only
  rw [if_neg hid, if_pos h]

theorem scanRow_discard (cfg : SyncConfig) (s : SyncState)
    (b : List PendingUpdate) (r : Row)
    (hid : extractId cfg.matching_id r ≠ "")
    (hnp : ¬(cfg.skipAlreadyProcessed = true ∧
             extractId cfg.matching_id r ∈ s.processed))
    (hp : mapProps cfg r = []) :
    scanRow cfg (s, b) r =
      ({ s with skipped := s.skipped + 1,
                processed := addOnce s.processed
                  (extractId cfg.matching_id r) }, b) := by
  unfold scanRow
  dsimp only
  rw [if_neg hid, if_neg hnp, if_pos hp]

theorem scanRow_enqueue (cfg : SyncConfig) (s : SyncState)
    (b : List PendingUpdate) (r : Row)
    (hid : extractId cfg.matching_id r ≠ "")
    (hnp : ¬(cfg.skipAlreadyProcessed = true ∧
             extractId cfg.matching_id r ∈ s.processed))
    (hp : mapProps cfg r ≠ []) :
    scanRow cfg (s, b) r =
      (s, b ++ [⟨extractId cfg.matching_id r, mapProps cfg r⟩]) := by
  unfold scanRow
  dsimp only
  rw [if_neg hid, if_neg hnp, if_neg hp]

/-! ## Provenance of the processed set during a scan -/

theorem scanRow_processed_char (cfg : SyncConfig)
    (acc : SyncState × List PendingUpdate) (r : Row) (x : String)
    (hx : x ∈ (scanRow cfg acc r).1.processed) :
    x ∈ acc.1.processed ∨
    (extractId cfg.matching_id r = x ∧ mapProps cfg r = []) := by
  revert hx
  unfold scanRow
  dsimp only
  split_ifs with h1 h2 h3
  · exact Or.inl
  · exact Or.inl
  · intro hx
    rcases mem_addOnce.mp hx with hx | rfl
    · exact Or.inl hx
    · exact Or.inr ⟨rfl, h3⟩
  · exact Or.inl

theorem scanRows_processed_char (cfg : SyncConfig) (rows : List Row) :
    ∀ (acc : SyncState × List PendingUpdate) (x : String),
    x ∈ (scanRows cfg rows acc).1.processed →
    x ∈ acc.1.processed ∨
    ∃ r ∈ rows, extractId cfg.matching_id r = x ∧ mapProps cfg r = [] := by
  induction rows with
  | nil => intro acc x hx; exact Or.inl hx
  | cons r rows ih =>
    intro acc x hx
    unfold scanRows at hx
    rw [List.foldl_cons] at hx
    rcases ih (scanRow cfg acc r) x hx with hx2 | ⟨r0, hr0, he⟩
    · rcases scanRow_processed_char cfg acc r x hx2 with hx3 | he
      · exact Or.inl hx3
      · exact Or.inr ⟨r, List.mem_cons_self r rows, he⟩
    · exact Or.inr ⟨r0, List.mem_cons_of_mem r hr0, he⟩

/-! ## The scan covers every consumed row -/

theorem scanRows_covers (cfg : SyncConfig) :
    ∀ (pre : List Row) (r : Row) (post : List Row) (s : SyncState),
    extractId cfg.matching_id r ≠ "" →
    extractId cfg.matching_id r ∈ s.processed ∨
    (∃ r0 ∈ pre ++ [r],
       extractId cfg.matching_id r0 = extractId cfg.matching_id r ∧
       mapProps cfg r0 = []) ∨
    (∃ w ∈ (scanRows cfg (pre ++ r :: post) (s, [])).2,
       w.id = extractId cfg.matching_id r) := by
  intro pre
  induction pre with
  | nil =>
    intro r post s hid
    by_cases hmem : extractId cfg.matching_id r ∈ s.processed
    · exact Or.inl hmem
    · by_cases hp : mapProps cfg r = []
      · exact Or.inr (Or.inl ⟨r, by simp, rfl, hp⟩)
      · refine Or.inr (Or.inr ⟨⟨extractId cfg.matching_id r, mapProps cfg r⟩,
          ?_, rfl⟩)
        have hnp : ¬(cfg.skipAlreadyProcessed = true ∧
            extractId cfg.matching_id r ∈ s.processed) := by
          intro h; exact hmem h.2
        have h1 : scanRows cfg ([] ++ r :: post) (s, []) =
            scanRows cfg post
              (s, [] ++ [⟨extractId cfg.matching_id r, mapProps cfg r⟩]) := by
          unfold scanRows
          rw [List.nil_append, List.foldl_cons,
              scanRow_enqueue cfg s [] r hid hnp hp]
        rw [h1, List.nil_append]
        rw [scanRows_batch cfg post s
            [⟨extractId cfg.matching_id r, mapProps cfg r⟩]]
        simp
  | cons p0 pre ih =>
    intro r post s hid
    have hstep : scanRows cfg ((p0 :: pre) ++ r :: post) (s, []) =
        scanRows cfg (pre ++ r :: post) (scanRow cfg (s, []) p0) := by
      unfold scanRows
      rw [List.cons_append, List.foldl_cons]
    have hbatch : scanRows cfg (pre ++ r :: post) (scanRow cfg (s, []) p0) =
        ((scanRows cfg (pre ++ r :: post)
            ((scanRow cfg (s, []) p0).1, [])).1,
         (scanRow cfg (s, []) p0).2 ++
           (scanRows cfg (pre ++ r :: post)
             ((scanRow cfg (s, []) p0).1, [])).2) :=
      scanRows_batch cfg (pre ++ r :: post) (scanRow cfg (s, []) p0).1
        (scanRow cfg (s, []) p0).2
    rcases ih r post (scanRow cfg (s, []) p0).1 hid with hmem | ⟨r0, hr0, he⟩ | ⟨w, hw, he⟩
    · rcases scanRow_processed_char cfg (s, []) p0 _ hmem with hmem2 | he
      · exact Or.inl hmem2
      · exact Or.inr (Or.inl ⟨p0, by simp, he⟩)
    · refine Or.inr (Or.inl ⟨r0, ?_, he⟩)
      rcases List.mem_append.mp hr0 with h | h
      · exact List.mem_append.mpr (Or.inl (List.mem_cons_of_mem p0 h))
      · exact List.mem_append.mpr (Or.inr h)
    · refine Or.inr (Or.inr ⟨w, ?_, he⟩)
      rw [hstep, hbatch]
      exact List.mem_append.mpr (Or.inr hw)

/-! ## Effect of a page's waves -/

theorem processWave_processed (cfg : SyncConfig) (f : UpdateFn)
    (s : SyncState) (wave : List PendingUpdate) :
    (processWave cfg f s wave).processed = addIds s.processed wave := by
  unfold processWave
  split
  · rw [applyWave_eq, saveCheckpoint_processed]
  · rw [dryWave_eq, saveCheckpoint_processed]

theorem processWave_frame (cfg : SyncConfig) (f : UpdateFn)
    (s : SyncState) (wave : List PendingUpdate) :
    (processWave cfg f s wave).fetched = s.fetched ∧
    (processWave cfg f s wave).skipped = s.skipped := by
  unfold processWave
  split
  · rw [applyWave_eq]
    have h := saveCheckpoint_frame cfg
      { s with attempted := s.attempted + wave.length,
               updated := s.updated + wave.countP (okItem f),
               errors := s.errors ++ wave.filterMap (outcomeErr f),
               processed := addIds s.processed wave,
               csv := s.csv ++
                 (if cfg.hasOutputCsv ∧ wave ≠ [] then
                    wave.map (outcomeRow f) else []) }
    exact ⟨h.1, h.2.2.2.1⟩
  · rw [dryWave_eq]
    have h := saveCheckpoint_frame cfg
      { s with attempted := s.attempted + wave.length,
               processed := addIds s.processed wave,
               csv := s.csv ++
                 (if cfg.hasOutputCsv then
                    wave.map (fun w => ⟨w.id, "DRY_RUN", w.properties, ""⟩)
                  else []) }
    exact ⟨h.1, h.2.2.2.1⟩

theorem processWave_ckptFile_of_save (cfg : SyncConfig) (f : UpdateFn)
    (s : SyncState) (wave : List PendingUpdate)
    (h : cfg.hasCheckpointPath = true) :
    (processWave cfg f s wave).ckptFile =
      (processWave cfg f s wave).processed := by
  unfold processWave
  split
  · rw [applyWave_eq, saveCheckpoint_processed, saveCheckpoint_ckptFile _ _ h]
  · rw [dryWave_eq, saveCheckpoint_processed, saveCheckpoint_ckptFile _ _ h]

theorem processWave_ckptFile_of_no_save (cfg : SyncConfig) (f : UpdateFn)
    (s : SyncState) (wave : List PendingUpdate)
    (h : cfg.hasCheckpointPath = false) :
    (processWave cfg f s wave).ckptFile = s.ckptFile := by
  unfold processWave
  split
  · rw [applyWave_eq]
    unfold saveCheckpoint
    rw [h]
    simp
  · rw [dryWave_eq]
    unfold saveCheckpoint
    rw [h]
    simp

theorem wavesFold_processed (cfg : SyncConfig) (f : UpdateFn) :
    ∀ (cs : List (List PendingUpdate)) (s : SyncState),
    (cs.foldl (processWave cfg f) s).processed =
      addIds s.processed cs.flatten := by
  intro cs
  induction cs with
  | nil => intro s; simp [addIds_nil]
  | cons c cs ih =>
    intro s
    rw [List.foldl_cons, ih, List.flatten_cons, addIds_append,
        processWave_processed]

theorem wavesFold_frame (cfg : SyncConfig) (f : UpdateFn) :
    ∀ (cs : List (List PendingUpdate)) (s : SyncState),
    (cs.foldl (processWave cfg f) s).fetched = s.fetched ∧
    (cs.foldl (processWave cfg f) s).skipped = s.skipped := by
  intro cs
  induction cs with
  | nil => intro s; exact ⟨rfl, rfl⟩
  | cons c cs ih =>
    intro s
    rw [List.foldl_cons]
    have h1 := processWave_frame cfg f s c
    have h2 := ih (processWave cfg f s c)
    exact ⟨h2.1.trans h1.1, h2.2.trans h1.2⟩

theorem wavesFold_ckptFile_last (cfg : SyncConfig) (f : UpdateFn)
    (hck : cfg.hasCheckpointPath = true) :
    ∀ (cs : List (List PendingUpdate)) (s : SyncState), cs ≠ [] →
    (cs.foldl (processWave cfg f) s).ckptFile =
      (cs.foldl (processWave cfg f) s).processed := by
  intro cs
  induction cs with
  | nil => intro s h; exact absurd rfl h
  | cons c cs ih =>
    intro s _
    rw [List.foldl_cons]
    cases cs with
    | nil => exact processWave_ckptFile_of_save cfg f s c hck
    | cons c2 cs2 => exact ih (processWave cfg f s c) (by simp)

theorem wavesFold_ckptFile_of_no_save (cfg : SyncConfig) (f : UpdateFn)
    (hck : cfg.hasCheckpointPath = false) :
    ∀ (cs : List (List PendingUpdate)) (s : SyncState),
    (cs.foldl (processWave cfg f) s).ckptFile = s.ckptFile := by
  intro cs
  induction cs with
  | nil => intro s; rfl
  | cons c cs ih =>
    intro s
    rw [List.foldl_cons, ih, processWave_ckptFile_of_no_save cfg f s c hck]

/-! ## Effect of one whole page -/

theorem processPage_fetched (cfg : SyncConfig) (f : UpdateFn)
    (s : SyncState) (rows : List Row) :
    (processPage cfg f s rows).fetched = s.fetched := by
  unfold processPage
  dsimp only
  rw [(wavesFold_frame cfg f _ _).1, (scanRows_frame cfg rows (s, [])).1]

theorem processPage_processed (cfg : SyncConfig) (f : UpdateFn)
    (s : SyncState) (rows : List Row) :
    (processPage cfg f s rows).processed =
      addIds (scanRows cfg rows (s, [])).1.processed
        (scanRows cfg rows (s, [])).2 := by
  unfold processPage
  dsimp only
  rw [wavesFold_processed, chunks_join]

theorem processPage_processed_mono (cfg : SyncConfig) (f : UpdateFn)
    (s : SyncState) (rows : List Row) :
    s.processed ⊆ (processPage cfg f s rows).processed := by
  rw [processPage_processed]
  exact (scanRows_processed_mono cfg rows (s, [])).trans addIds_subset

theorem processPage_batch_in_ckpt (cfg : SyncConfig) (f : UpdateFn)
    (s : SyncState) (rows : List Row) (hck : cfg.hasCheckpointPath = true) :
    ∀ w ∈ (scanRows cfg rows (s, [])).2,
      w.id ∈ (processPage cfg f s rows).ckptFile := by
  intro w hw
  have hne : chunks cfg.updateBatchSize (scanRows cfg rows (s, [])).2 ≠ [] := by
    rw [Ne, chunks_eq_nil]
    intro h
    rw [h] at hw
    exact List.not_mem_nil w hw
  unfold processPage
  dsimp only
  rw [wavesFold_ckptFile_last cfg f hck _ _ hne, wavesFold_processed,
      chunks_join]
  exact mem_addIds.mpr (Or.inr ⟨w, hw, rfl⟩)

theorem processPage_inv (cfg : SyncConfig) (f : UpdateFn)
    (s : SyncState) (rows : List Row)
    (hinv : s.ckptFile ⊆ s.processed) :
    (processPage cfg f s rows).ckptFile ⊆
      (processPage cfg f s rows).processed ∧
    s.ckptFile ⊆ (processPage cfg f s rows).ckptFile := by
  cases hck : cfg.hasCheckpointPath with
  | false =>
    have hc : (processPage cfg f s rows).ckptFile = s.ckptFile := by
      unfold processPage
      dsimp only
      rw [wavesFold_ckptFile_of_no_save cfg f hck,
          (scanRows_frame cfg rows (s, [])).2.2.2.2.2]
    rw [hc]
    exact ⟨hinv.trans (processPage_processed_mono cfg f s rows),
           List.Subset.refl _⟩
  | true =>
    by_cases hbatch : (scanRows cfg rows (s, [])).2 = []
    · have hch : chunks cfg.updateBatchSize (scanRows cfg rows (s, [])).2 = [] := by
        rw [chunks_eq_nil]; exact hbatch
      have hpp : processPage cfg f s rows = (scanRows cfg rows (s, [])).1 := by
        unfold processPage
        dsimp only
        rw [hch]
        rfl
      rw [hpp, (scanRows_frame cfg rows (s, [])).2.2.2.2.2]
      exact ⟨hinv.trans (scanRows_processed_mono cfg rows (s, [])),
             List.Subset.refl _⟩
    · have hne : chunks cfg.updateBatchSize (scanRows cfg rows (s, [])).2 ≠ [] := by
        rw [Ne, chunks_eq_nil]; exact hbatch
      have hc : (processPage cfg f s rows).ckptFile =
          (processPage cfg f s rows).processed := by
        unfold processPage
        dsimp only
        exact wavesFold_ckptFile_last cfg f hck _ _ hne
      constructor
      · rw [hc]
        exact List.Subset.refl _
      · rw [hc]
        exact hinv.trans (processPage_processed_mono cfg f s rows)

theorem processPage_provenance (cfg : SyncConfig) (f : UpdateFn)
    (s : SyncState) (rows : List Row) (hck : cfg.hasCheckpointPath = true)
    (x : String) (hx : x ∈ (processPage cfg f s rows).processed) :
    x ∈ s.processed ∨
    (∃ r0 ∈ rows, extractId cfg.matching_id r0 = x ∧ mapProps cfg r0 = []) ∨
    x ∈ (processPage cfg f s rows).ckptFile := by
  rw [processPage_processed] at hx
  rcases mem_addIds.mp hx with hx2 | ⟨w, hw, rfl⟩
  · rcases scanRows_processed_char cfg rows (s, []) x hx2 with h | h
    · exact Or.inl h
    · exact Or.inr (Or.inl h)
  · exact Or.inr (Or.inr (processPage_batch_in_ckpt cfg f s rows hck w hw))

theorem processPage_covers (cfg : SyncConfig) (f : UpdateFn)
    (s : SyncState) (pre : List Row) (r : Row) (post : List Row)
    (hck : cfg.hasCheckpointPath = true)
    (hid : extractId cfg.matching_id r ≠ "") :
    extractId cfg.matching_id r ∈
      (processPage cfg f s (pre ++ r :: post)).ckptFile ∨
    extractId cfg.matching_id r ∈ s.processed ∨
    ∃ r0 ∈ pre ++ [r],
      extractId cfg.matching_id r0 = extractId cfg.matching_id r ∧
      mapProps cfg r0 = [] := by
  rcases scanRows_covers cfg pre r post s hid with h | h | ⟨w, hw, he⟩
  · exact Or.inr (Or.inl h)
  · exact Or.inr (Or.inr h)
  · exact Or.inl (he ▸ processPage_batch_in_ckpt cfg f s _ hck w hw)

/-! ## Unfolding equations for the page loop -/

theorem pageLoop_nil (cfg : SyncConfig) (f : UpdateFn) (s : SyncState) :
    pageLoop cfg f [] s = s := rfl

theorem pageLoop_zero (cfg : SyncConfig) (f : UpdateFn) (s : SyncState)
    (p : Page) (rest : List Page) (hz : p.rows.length = 0) :
    pageLoop cfg f (p :: rest) s =
      { s with fetched := s.fetched + p.rows.length } := by
  unfold pageLoop
  dsimp only
  rw [if_pos hz]

theorem pageLoop_last (cfg : SyncConfig) (f : UpdateFn) (s : SyncState)
    (p : Page) (rest : List Page) (hz : p.rows.length ≠ 0)
    (htok : p.tok = none) :
    pageLoop cfg f (p :: rest) s =
      processPage cfg f { s with fetched := s.fetched + p.rows.length }
        p.rows := by
  unfold pageLoop
  dsimp only
  rw [if_neg hz, htok]

theorem pageLoop_step (cfg : SyncConfig) (f : UpdateFn) (s : SyncState)
    (p : Page) (rest : List Page) (t : String) (hz : p.rows.length ≠ 0)
    (htok : p.tok = some t) :
    pageLoop cfg f (p :: rest) s =
      pageLoop cfg f rest
        (processPage cfg f { s with fetched := s.fetched + p.rows.length }
          p.rows) := by
  conv_lhs => rw [pageLoop]
  dsimp only
  rw [if_neg hz, htok]

theorem consumedRows_zero (p : Page) (rest : List Page)
    (hz : p.rows.length = 0) : consumedRows (p :: rest) = [] := by
  unfold consumedRows
  rw [if_pos hz]

theorem consumedRows_last (p : Page) (rest : List Page)
    (hz : p.rows.length ≠ 0) (htok : p.tok = none) :
    consumedRows (p :: rest) = p.rows := by
  unfold consumedRows
  rw [if_neg hz, htok]

theorem consumedRows_step (p : Page) (rest : List Page) (t : String)
    (hz : p.rows.length ≠ 0) (htok : p.tok = some t) :
    consumedRows (p :: rest) = p.rows ++ consumedRows rest := by
  conv_lhs => rw [consumedRows]
  rw [if_neg hz, htok]

/-! ## Run-level invariants -/

theorem pageLoop_processed_mono (cfg : SyncConfig) (f : UpdateFn) :
    ∀ (pages : List Page) (s : SyncState),
    s.processed ⊆ (pageLoop cfg f pages s).processed := by
  intro pages
  induction pages with
  | nil => intro s; exact List.Subset.refl _
  | cons p rest ih =>
    intro s
    by_cases hz : p.rows.length = 0
    · rw [pageLoop_zero cfg f s p rest hz]
      exact List.Subset.refl _
    · cases htok : p.tok with
      | none =>
        rw [pageLoop_last cfg f s p rest hz htok]
        exact processPage_processed_mono cfg f
          { s with fetched := s.fetched + p.rows.length } p.rows
      | some t =>
        rw [pageLoop_step cfg f s p rest t hz htok]
        exact (processPage_processed_mono cfg f
          { s with fetched := s.fetched + p.rows.length } p.rows).trans (ih _)

theorem pageLoop_inv (cfg : SyncConfig) (f : UpdateFn) :
    ∀ (pages : List Page) (s : SyncState),
    s.ckptFile ⊆ s.processed →
    (pageLoop cfg f pages s).ckptFile ⊆
      (pageLoop cfg f pages s).processed ∧
    s.ckptFile ⊆ (pageLoop cfg f pages s).ckptFile := by
  intro pages
  induction pages with
  | nil => intro s hinv; exact ⟨hinv, List.Subset.refl _⟩
  | cons p rest ih =>
    intro s hinv
    by_cases hz : p.rows.length = 0
    · rw [pageLoop_zero cfg f s p rest hz]
      exact ⟨hinv, List.Subset.refl _⟩
    · cases htok : p.tok with
      | none =>
        rw [pageLoop_last cfg f s p rest hz htok]
        exact processPage_inv cfg f _ p.rows hinv
      | some t =>
        rw [pageLoop_step cfg f s p rest t hz htok]
        have h1 := processPage_inv cfg f
          { s with fetched := s.fetched + p.rows.length } p.rows hinv
        have h2 := ih _ h1.1
        exact ⟨h2.1, h1.2.trans h2.2⟩

/-- Run-level covering: for every consumed row with a non-blank identifier,
the identifier reaches the final checkpoint file, or was already processed
when the run started, or some row up to and including this one carries the
same identifier with an empty (blank-only) mapping. -/
theorem pageLoop_covers (cfg : SyncConfig) (f : UpdateFn)
    (hck : cfg.hasCheckpointPath = true) :
    ∀ (pages : List Page) (s : SyncState) (pre : List Row) (r : Row)
      (post : List Row),
    s.ckptFile ⊆ s.processed →
    consumedRows pages = pre ++ r :: post →
    extractId cfg.matching_id r ≠ "" →
    extractId cfg.matching_id r ∈ (pageLoop cfg f pages s).ckptFile ∨
    extractId cfg.matching_id r ∈ s.processed ∨
    ∃ r0 ∈ pre ++ [r],
      extractId cfg.matching_id r0 = extractId cfg.matching_id r ∧
      mapProps cfg r0 = [] := by
  intro pages
  induction pages with
  | nil =>
    intro s pre r post _ hcons _
    rw [show consumedRows ([] : List Page) = [] from rfl] at hcons
    exact absurd hcons.symm (by simp)
  | cons p rest ih =>
    intro s pre r post hinv hcons hid
    by_cases hz : p.rows.length = 0
    · rw [consumedRows_zero p rest hz] at hcons
      exact absurd hcons.symm (by simp)
    · cases htok : p.tok with
      | none =>
        rw [consumedRows_last p rest hz htok] at hcons
        rw [pageLoop_last cfg f s p rest hz htok, hcons]
        exact processPage_covers cfg f
          { s with fetched := s.fetched + (pre ++ r :: post).length }
          pre r post hck hid
      | some t =>
        rw [consumedRows_step p rest t hz htok] at hcons
        rw [pageLoop_step cfg f s p rest t hz htok]
        have hinv1 : SyncState.ckptFile
            { s with fetched := s.fetched + p.rows.length } ⊆
            SyncState.processed
            { s with fetched := s.fetched + p.rows.length } := hinv
        have hpp := processPage_inv cfg f
          { s with fetched := s.fetched + p.rows.length } p.rows hinv1
        have key : ∀ a' : List Row, pre = p.rows ++ a' →
            consumedRows rest = a' ++ r :: post →
            extractId cfg.matching_id r ∈
              (pageLoop cfg f rest
                (processPage cfg f
                  { s with fetched := s.fetched + p.rows.length }
                  p.rows)).ckptFile ∨
            extractId cfg.matching_id r ∈ s.processed ∨
            ∃ r0 ∈ pre ++ [r],
              extractId cfg.matching_id r0 = extractId cfg.matching_id r ∧
              mapProps cfg r0 = [] := by
          intro a' ha1 ha2
          rcases ih (processPage cfg f
              { s with fetched := s.fetched + p.rows.length } p.rows)
              a' r post hpp.1 ha2 hid with h | h | ⟨r0, hr0, he⟩
          · exact Or.inl h
          · rcases processPage_provenance cfg f
                { s with fetched := s.fetched + p.rows.length } p.rows hck _ h
              with h2 | ⟨r0, hr0, he⟩ | h2
            · exact Or.inr (Or.inl h2)
            · refine Or.inr (Or.inr ⟨r0, ?_, he⟩)
              rw [ha1]
              exact List.mem_append.mpr
                (Or.inl (List.mem_append.mpr (Or.inl hr0)))
            · exact Or.inl ((pageLoop_inv cfg f rest _ hpp.1).2 h2)
          · refine Or.inr (Or.inr ⟨r0, ?_, he⟩)
            rw [ha1, List.append_assoc]
            exact List.mem_append.mpr (Or.inr hr0)
        rcases List.append_eq_append_iff.mp hcons with ⟨a', ha1, ha2⟩ |
          ⟨c', hc1, hc2⟩
        · exact key a' ha1 ha2
        · cases c' with
          | nil =>
            exact key [] (by simp [hc1]) (by simpa using hc2.symm)
          | cons r2 c2 =>
            rw [List.cons_append] at hc2
            obtain ⟨h1, h2⟩ := List.cons_eq_cons.mp hc2
            subst h1
            rcases processPage_covers cfg f
                { s with fetched := s.fetched + p.rows.length } pre r c2 hck
                hid with h | h | h
            · rw [← hc1] at h
              exact Or.inl ((pageLoop_inv cfg f rest _ hpp.1).2 h)
            · exact Or.inr (Or.inl h)
            · exact Or.inr (Or.inr h)


theorem coveredBy_append_left (cfg : SyncConfig) (P : List String)
    (xs ys : List Row) (h : coveredBy cfg P (xs ++ ys)) :
    coveredBy cfg P xs := by
  intro pre r post hdec hid
  exact h pre r (post ++ ys) (by rw [hdec]; simp) hid

/-- Scanning a covered row list from a state whose processed set realizes the
cover: nothing is enqueued, every non-blank row is counted as skipped, and
afterwards every non-blank identifier of the list is in the processed set. -/
theorem scanRows_rerun (cfg : SyncConfig)
    (hskip : cfg.skipAlreadyProcessed = true) :
    ∀ (rows : List Row) (s : SyncState) (b : List PendingUpdate),
    coveredBy cfg s.processed rows →
    (scanRows cfg rows (s, b)).2 = b ∧
    (scanRows cfg rows (s, b)).1.skipped = s.skipped +
      rows.countP (fun r => extractId cfg.matching_id r != "") ∧
    (∀ r ∈ rows, extractId cfg.matching_id r ≠ "" →
      extractId cfg.matching_id r ∈ (scanRows cfg rows (s, b)).1.processed) := by
  intro rows
  induction rows with
  | nil =>
    intro s b _
    refine ⟨rfl, by simp [scanRows], ?_⟩
    intro r hr
    exact absurd hr (List.not_mem_nil r)
  | cons r rows ih =>
    intro s b hcov
    have tail_cov : ∀ P2 : List String, s.processed ⊆ P2 →
        (extractId cfg.matching_id r ≠ "" →
          extractId cfg.matching_id r ∈ P2) →
        coveredBy cfg P2 rows := by
      intro P2 hsub hrP pre r2 post hdec hid2
      rcases hcov (r :: pre) r2 post (by rw [hdec]; rfl) hid2 with h |
        ⟨r0, hr0, he⟩
      · exact Or.inl (hsub h)
      · have hr0m : r0 ∈ r :: (pre ++ [r2]) := by
          rw [← List.cons_append]
          exact hr0
        rcases List.mem_cons.mp hr0m with rfl | hr0t
        · refine Or.inl ?_
          rw [← he.1]
          exact hrP (by rw [he.1]; exact hid2)
        · exact Or.inr ⟨r0, hr0t, he⟩
    by_cases hid : extractId cfg.matching_id r = ""
    · have hstep : scanRows cfg (r :: rows) (s, b) =
          scanRows cfg rows (s, b) := by
        unfold scanRows
        rw [List.foldl_cons, scanRow_blank cfg s b r hid]
      have hcov2 := tail_cov s.processed (List.Subset.refl _)
        (fun h => absurd hid h)
      obtain ⟨c1, c2, c3⟩ := ih s b hcov2
      refine ⟨by rw [hstep]; exact c1, ?_, ?_⟩
      · rw [hstep, c2, List.countP_cons]
        simp [hid]
      · intro r2 hr2 hid2
        rw [hstep]
        rcases List.mem_cons.mp hr2 with rfl | hr2t
        · exact absurd hid hid2
        · exact c3 r2 hr2t hid2
    · by_cases hmem : extractId cfg.matching_id r ∈ s.processed
      · have hstep : scanRows cfg (r :: rows) (s, b) =
            scanRows cfg rows ({ s with skipped := s.skipped + 1 }, b) := by
          unfold scanRows
          rw [List.foldl_cons, scanRow_skip cfg s b r hid ⟨hskip, hmem⟩]
        have hcov2 := tail_cov s.processed (List.Subset.refl _)
          (fun _ => hmem)
        obtain ⟨c1, c2, c3⟩ := ih { s with skipped := s.skipped + 1 } b hcov2
        refine ⟨by rw [hstep]; exact c1, ?_, ?_⟩
        · rw [hstep, c2, List.countP_cons]
          simp only [bne_iff_ne, ne_eq, hid, not_false_eq_true, if_pos]
          omega
        · intro r2 hr2 hid2
          rw [hstep]
          rcases List.mem_cons.mp hr2 with rfl | hr2t
          · exact scanRows_processed_mono cfg rows
              ({ s with skipped := s.skipped + 1 }, b) hmem
          · exact c3 r2 hr2t hid2
      · have hprops : mapProps cfg r = [] := by
          rcases hcov [] r rows rfl hid with h | ⟨r0, hr0, he⟩
          · exact absurd h hmem
          · rcases List.mem_singleton.mp (by simpa using hr0) with rfl
            exact he.2
        have hnp : ¬(cfg.skipAlreadyProcessed = true ∧
            extractId cfg.matching_id r ∈ s.processed) := fun h => hmem h.2
        have hstep : scanRows cfg (r :: rows) (s, b) =
            scanRows cfg rows
              ({ s with skipped := s.skipped + 1, processed := addOnce s.processed (extractId cfg.matching_id r) }, b) := by
          unfold scanRows
          rw [List.foldl_cons, scanRow_discard cfg s b r hid hnp hprops]
        have hcov2 := tail_cov
          (addOnce s.processed (extractId cfg.matching_id r))
          addOnce_subset (fun _ => mem_addOnce_self)
        obtain ⟨c1, c2, c3⟩ := ih
          { s with skipped := s.skipped + 1, processed := addOnce s.processed (extractId cfg.matching_id r) }
          b hcov2
        refine ⟨by rw [hstep]; exact c1, ?_, ?_⟩
        · rw [hstep, c2, List.countP_cons]
          simp only [bne_iff_ne, ne_eq, hid, not_false_eq_true, if_pos]
          omega
        · intro r2 hr2 hid2
          rw [hstep]
          rcases List.mem_cons.mp hr2 with rfl | hr2t
          · exact scanRows_processed_mono cfg rows _ mem_addOnce_self
          · exact c3 r2 hr2t hid2

theorem processPage_no_batch (cfg : SyncConfig) (f : UpdateFn)
    (s : SyncState) (rows : List Row)
    (hb : (scanRows cfg rows (s, [])).2 = []) :
    processPage cfg f s rows = (scanRows cfg rows (s, [])).1 := by
  unfold processPage
  dsimp only
  rw [hb, chunks_eq_nil.mpr rfl]
  rfl

/-- A rerun over a fully covered stream: no wave runs, nothing is attempted,
updated or recorded, the checkpoint file is untouched, and every consumed
row with a non-blank identifier is counted as skipped. -/
theorem pageLoop_rerun (cfg : SyncConfig) (f : UpdateFn)
    (hskip : cfg.skipAlreadyProcessed = true) :
    ∀ (pages : List Page) (s : SyncState),
    coveredBy cfg s.processed (consumedRows pages) →
    (pageLoop cfg f pages s).attempted = s.attempted ∧
    (pageLoop cfg f pages s).updated = s.updated ∧
    (pageLoop cfg f pages s).errors = s.errors ∧
    (pageLoop cfg f pages s).csv = s.csv ∧
    (pageLoop cfg f pages s).ckptFile = s.ckptFile ∧
    (pageLoop cfg f pages s).skipped = s.skipped +
      (consumedRows pages).countP
        (fun r => extractId cfg.matching_id r != "") := by
  intro pages
  induction pages with
  | nil =>
    intro s _
    exact ⟨rfl, rfl, rfl, rfl, rfl, by simp [consumedRows, pageLoop]⟩
  | cons p rest ih =>
    intro s hcov
    by_cases hz : p.rows.length = 0
    · rw [pageLoop_zero cfg f s p rest hz, consumedRows_zero p rest hz]
      exact ⟨rfl, rfl, rfl, rfl, rfl, by simp⟩
    · cases htok : p.tok with
      | none =>
        rw [consumedRows_last p rest hz htok] at hcov ⊢
        rw [pageLoop_last cfg f s p rest hz htok]
        have hscan := scanRows_rerun cfg hskip p.rows
          { s with fetched := s.fetched + p.rows.length } [] hcov
        rw [processPage_no_batch cfg f _ p.rows hscan.1]
        have hfr := scanRows_frame cfg p.rows
          ({ s with fetched := s.fetched + p.rows.length }, [])
        exact ⟨hfr.2.1, hfr.2.2.1, hfr.2.2.2.1, hfr.2.2.2.2.1,
               hfr.2.2.2.2.2, hscan.2.1⟩
      | some t =>
        rw [consumedRows_step p rest t hz htok] at hcov ⊢
        rw [pageLoop_step cfg f s p rest t hz htok]
        have hcov1 : coveredBy cfg
            (SyncState.processed
              { s with fetched := s.fetched + p.rows.length }) p.rows :=
          coveredBy_append_left cfg s.processed p.rows (consumedRows rest) hcov
        have hscan := scanRows_rerun cfg hskip p.rows
          { s with fetched := s.fetched + p.rows.length } [] hcov1
        have hpp := processPage_no_batch cfg f
          { s with fetched := s.fetched + p.rows.length } p.rows hscan.1
        have hcov2 : coveredBy cfg
            (processPage cfg f
              { s with fetched := s.fetched + p.rows.length }
              p.rows).processed (consumedRows rest) := by
          intro pre r post hdec hid
          rcases hcov (p.rows ++ pre) r post (by rw [hdec]; simp) hid with h |
            ⟨r0, hr0, he⟩
          · refine Or.inl ?_
            rw [hpp]
            exact scanRows_processed_mono cfg p.rows
              ({ s with fetched := s.fetched + p.rows.length }, []) h
          · have hr0m : r0 ∈ p.rows ∨ r0 ∈ pre ++ [r] := by
              rw [List.append_assoc] at hr0
              exact List.mem_append.mp hr0
            rcases hr0m with h2 | h2
            · refine Or.inl ?_
              rw [hpp, ← he.1]
              exact hscan.2.2 r0 h2 (by rw [he.1]; exact hid)
            · exact Or.inr ⟨r0, h2, he⟩
        obtain ⟨c1, c2, c3, c4, c5, c6⟩ := ih
          (processPage cfg f
            { s with fetched := s.fetched + p.rows.length } p.rows) hcov2
        have hfr := scanRows_frame cfg p.rows
          ({ s with fetched := s.fetched + p.rows.length }, [])
        refine ⟨?_, ?_, ?_, ?_, ?_, ?_⟩
        · rw [hpp] at c1
          rw [hpp, c1]
          exact hfr.2.1
        · rw [hpp] at c2
          rw [hpp, c2]
          exact hfr.2.2.1
        · rw [hpp] at c3
          rw [hpp, c3]
          exact hfr.2.2.2.1
        · rw [hpp] at c4
          rw [hpp, c4]
          exact hfr.2.2.2.2.1
        · rw [hpp] at c5
          rw [hpp, c5]
          exact hfr.2.2.2.2.2
        · rw [hpp] at c6
          rw [hpp, c6, hscan.2.1, List.countP_append]
          simp only []
          omega

/-! ## Concrete instances used by counterexamples and witnesses -/







/-! ## C4 — blank rule of the record mapper -/

theorem keepValue_iff (db : Bool) (v : JValue) :
    keepValue db v = true ↔
      v ≠ JValue.null ∧ v ≠ JValue.undefinedV ∧
        (db = true → jsTrim (jsToString v) ≠ "") := by
  cases v <;> cases db <;> simp [keepValue, jsToString]

/-- C4: a `(key, value)` entry survives `clean` exactly when it was in the
input object, the value is neither `null` nor `undefined`, and — when
`dropBlanks` is set — its text form does not trim to the empty string.  In
particular `null`/`undefined` are always excluded whatever `dropBlanks`,
`dropBlanks = true` additionally excludes exactly the values whose text
trims empty, and with `dropBlanks = false` empty strings pass through. -/
theorem clean_blank_rule (db : Bool) (k : String) (v : JValue)
    (obj : List (String × JValue)) :
    (k, v) ∈ clean db obj ↔
      (k, v) ∈ obj ∧ v ≠ JValue.null ∧ v ≠ JValue.undefinedV ∧
        (db = true → jsTrim (jsToString v) ≠ "") := by
  unfold clean
  rw [List.mem_filter]
  constructor
  · rintro ⟨h1, h2⟩
    exact ⟨h1, (keepValue_iff db v).mp h2⟩
  · rintro ⟨h1, h2⟩
    exact ⟨h1, (keepValue_iff db v).mpr h2⟩

/-- Witness for C4 at concrete inputs: with `dropBlanks = true` a padded
non-blank string is kept, and (contrapositive side) the hypotheses hold. -/
theorem clean_blank_rule_witness :
    ("p", JValue.str " x ") ∈ clean true [("p", JValue.str " x ")] ↔
      ("p", JValue.str " x ") ∈ [("p", JValue.str " x ")] ∧
        JValue.str " x " ≠ JValue.null ∧ JValue.str " x " ≠ JValue.undefinedV ∧
        (true = true → jsTrim (jsToString (JValue.str " x ")) ≠ "") :=
  clean_blank_rule true "p" (JValue.str " x ") [("p", JValue.str " x ")]

/-! ## C5 — blank-only rows are discarded, counted and marked processed -/

/-- C5: a row with a valid (non-blank) identifier, not short-circuited by the
already-processed check, whose mapped property set is empty after blank
filtering, creates no pending update (so nothing is ever dispatched for it),
increments the skipped counter, and its identifier joins the processed set. -/
theorem blank_only_discard (cfg : SyncConfig) (s : SyncState)
    (b : List PendingUpdate) (r : Row)
    (hid : extractId cfg.matching_id r ≠ "")
    (hnp : ¬(cfg.skipAlreadyProcessed = true ∧
             extractId cfg.matching_id r ∈ s.processed))
    (hempty : mapProps cfg r = []) :
    (scanRow cfg (s, b) r).2 = b ∧
    (scanRow cfg (s, b) r).1.skipped = s.skipped + 1 ∧
    (scanRow cfg (s, b) r).1.processed =
      addOnce s.processed (extractId cfg.matching_id r) ∧
    extractId cfg.matching_id r ∈ (scanRow cfg (s, b) r).1.processed := by
  rw [scanRow_discard cfg s b r hid hnp hempty]
  exact ⟨rfl, rfl, rfl, mem_addOnce_self⟩

/-- Witness for C5: the blank-only row with identifier "1" is discarded,
skipped and marked processed. -/
theorem blank_only_discard_witness :
    (scanRow cfgEx (initState [], []) rowBlank).2 = [] ∧
    (scanRow cfgEx (initState [], []) rowBlank).1.skipped =
      (initState []).skipped + 1 ∧
    (scanRow cfgEx (initState [], []) rowBlank).1.processed =
      addOnce (initState []).processed (extractId cfgEx.matching_id rowBlank) ∧
    extractId cfgEx.matching_id rowBlank ∈
      (scanRow cfgEx (initState [], []) rowBlank).1.processed :=
  blank_only_discard cfgEx (initState []) [] rowBlank (by decide)
    (by decide) (by decide)

/-! ## C6 — pagination termination -/

/-- C6: the page loop stops at a page with zero rows even when that page
still carries a non-null token, and also stops when the token is null; for
a paginator yielding pages of sizes 5000, 5000 and 0 (tokens present until
the last), the loop never consumes anything beyond the third page and the
fetched total is exactly 10000. -/
theorem pagination_termination (cfg : SyncConfig) (f : UpdateFn)
    (s : SyncState) (p1 p2 p3 : Page) (junk : List Page)
    (h1 : p1.rows.length = 5000) (h2 : p2.rows.length = 5000)
    (h3 : p3.rows.length = 0) (t1 : p1.tok ≠ none) (t2 : p2.tok ≠ none) :
    pageLoop cfg f (p1 :: p2 :: p3 :: junk) s =
      pageLoop cfg f [p1, p2, p3] s ∧
    (pageLoop cfg f (p1 :: p2 :: p3 :: junk) s).fetched =
      s.fetched + 10000 ∧
    (∀ (p : Page) (junk2 : List Page) (s2 : SyncState),
       p.rows.length = 0 →
       pageLoop cfg f (p :: junk2) s2 =
         { s2 with fetched := s2.fetched + p.rows.length }) ∧
    (∀ (p : Page) (junk2 : List Page) (s2 : SyncState), p.tok = none →
       pageLoop cfg f (p :: junk2) s2 = pageLoop cfg f [p] s2) := by
  obtain ⟨x1, ht1⟩ := Option.ne_none_iff_exists.mp t1
  obtain ⟨x2, ht2⟩ := Option.ne_none_iff_exists.mp t2
  have hz1 : p1.rows.length ≠ 0 := by omega
  have hz2 : p2.rows.length ≠ 0 := by omega
  have hL : ∀ rest : List Page,
      pageLoop cfg f (p1 :: p2 :: p3 :: rest) s =
        { processPage cfg f
            { processPage cfg f { s with fetched := s.fetched + p1.rows.length }
                p1.rows with
              fetched := (processPage cfg f
                { s with fetched := s.fetched + p1.rows.length }
                p1.rows).fetched + p2.rows.length } p2.rows with
          fetched := (processPage cfg f
            { processPage cfg f { s with fetched := s.fetched + p1.rows.length }
                p1.rows with
              fetched := (processPage cfg f
                { s with fetched := s.fetched + p1.rows.length }
                p1.rows).fetched + p2.rows.length } p2.rows).fetched +
            p3.rows.length } := by
    intro rest
    rw [pageLoop_step cfg f s p1 (p2 :: p3 :: rest) x1 hz1 ht1.symm]
    rw [pageLoop_step cfg f _ p2 (p3 :: rest) x2 hz2 ht2.symm]
    rw [pageLoop_zero cfg f _ p3 rest h3]
  refine ⟨?_, ?_, ?_, ?_⟩
  · rw [hL junk, hL []]
  · rw [hL junk]
    have e1 := processPage_fetched cfg f
      { s with fetched := s.fetched + p1.rows.length } p1.rows
    have e2 := processPage_fetched cfg f
      { processPage cfg f { s with fetched := s.fetched + p1.rows.length }
          p1.rows with
        fetched := (processPage cfg f
          { s with fetched := s.fetched + p1.rows.length }
          p1.rows).fetched + p2.rows.length } p2.rows
    dsimp only
    rw [e2]
    dsimp only
    rw [e1]
    dsimp only
    omega
  · intro p junk2 s2 hz
    exact pageLoop_zero cfg f s2 p junk2 hz
  · intro p junk2 s2 htok
    by_cases hz : p.rows.length = 0
    · rw [pageLoop_zero cfg f s2 p junk2 hz, pageLoop_zero cfg f s2 p [] hz]
    · rw [pageLoop_last cfg f s2 p junk2 hz htok,
          pageLoop_last cfg f s2 p [] hz htok]

/-- Witness for C6: two replicate-5000 pages with tokens, then an empty page
with a token still present; exactly 10000 rows are fetched. -/
theorem pagination_termination_witness :
    (pageLoop cfgEx fOk
      [⟨List.replicate 5000 [], some "t1"⟩,
       ⟨List.replicate 5000 [], some "t2"⟩,
       ⟨[], some "t3"⟩, ⟨[rowDup], none⟩]
      (initState [])).fetched = (initState []).fetched + 10000 :=
  (pagination_termination cfgEx fOk (initState [])
    ⟨List.replicate 5000 [], some "t1"⟩ ⟨List.replicate 5000 [], some "t2"⟩
    ⟨[], some "t3"⟩ [⟨[rowDup], none⟩]
    (show (List.replicate 5000 ([] : Row)).length = 5000 by
      rw [List.length_replicate])
    (show (List.replicate 5000 ([] : Row)).length = 5000 by
      rw [List.length_replicate])
    rfl (by simp) (by simp)).2.1

/-! ## C7 — the processed set only grows, at exactly the terminal cases -/

/-- C7: the in-memory processed set never loses an identifier over a whole
run (monotonicity over the page loop), and the exact places identifiers are
added are: the blank-only discard during the scan (and only then — the
other scan branches leave the set unchanged), the worker body of an applied
update (which adds the item's identifier whether the update resolved or
threw), and the dry-run recording path (which adds every identifier of the
wave). -/
theorem processed_set_monotonicity (cfg : SyncConfig) (f : UpdateFn) :
    (∀ (pages : List Page) (s : SyncState),
       s.processed ⊆ (pageLoop cfg f pages s).processed) ∧
    (∀ (acc : SyncState × List PendingUpdate) (r : Row),
       (scanRow cfg acc r).1.processed =
         if extractId cfg.matching_id r ≠ "" ∧
            ¬(cfg.skipAlreadyProcessed = true ∧
              extractId cfg.matching_id r ∈ acc.1.processed) ∧
            mapProps cfg r = []
         then addOnce acc.1.processed (extractId cfg.matching_id r)
         else acc.1.processed) ∧
    (∀ (s : SyncState) (w : PendingUpdate) (csvAcc : List AuditRow),
       (applyItem f s w csvAcc).1.processed = addOnce s.processed w.id) ∧
    (∀ (s : SyncState) (wave : List PendingUpdate),
       (dryWave cfg s wave).processed = addIds s.processed wave) := by
  refine ⟨pageLoop_processed_mono cfg f, ?_, ?_, ?_⟩
  · intro acc r
    by_cases hid : extractId cfg.matching_id r = ""
    · rw [show acc = (acc.1, acc.2) from rfl, scanRow_blank cfg acc.1 acc.2 r hid]
      rw [if_neg (by intro h; exact h.1 hid)]
    · by_cases hmem : cfg.skipAlreadyProcessed = true ∧
          extractId cfg.matching_id r ∈ acc.1.processed
      · rw [show acc = (acc.1, acc.2) from rfl,
            scanRow_skip cfg acc.1 acc.2 r hid hmem]
        rw [if_neg (by intro h; exact h.2.1 hmem)]
      · by_cases hp : mapProps cfg r = []
        · rw [show acc = (acc.1, acc.2) from rfl,
              scanRow_discard cfg acc.1 acc.2 r hid hmem hp]
          rw [if_pos ⟨hid, hmem, hp⟩]
        · rw [show acc = (acc.1, acc.2) from rfl,
              scanRow_enqueue cfg acc.1 acc.2 r hid hmem hp]
          rw [if_neg (by intro h; exact hp h.2.2)]
  · intro s w csvAcc
    rw [applyItem_eq]
  · intro s wave
    rw [dryWave_eq, saveCheckpoint_processed]

/-- Witness for C7: the apply-mode worker body records identifier "1" into
the processed set. -/
theorem processed_set_monotonicity_witness :
    (applyItem fOk (initState []) ⟨"1", [("p", JValue.str "x")]⟩ []).1.processed =
      addOnce (initState []).processed "1" :=
  (processed_set_monotonicity cfgEx fOk).2.2.1 (initState [])
    ⟨"1", [("p", JValue.str "x")]⟩ []

/-! ## C8 — the concurrency bound of runWithConcurrency -/

theorem poolStep_length {n : Nat} {s s2 : PoolState}
    (h : PoolStep n s s2) : s2.workers.length = s.workers.length := by
  cases h <;> simp

/-- C8: in the scheduler model of `runWithConcurrency` with `C` workers over
`M` items (`M > C`), every state reachable from the initial state has at
most `C` calls in flight — each worker holds at most one awaited call. -/
theorem concurrency_bound (C M : Nat) (hM : C < M) (s : PoolState)
    (h : Relation.ReflTransGen (PoolStep M) (poolInit C) s) :
    inFlight s ≤ C := by
  have hlen : s.workers.length = C := by
    induction h with
    | refl => simp [poolInit]
    | tail h1 h2 ih => rw [poolStep_length h2]; exact ih
  calc inFlight s = s.workers.count .inflight := rfl
    _ ≤ s.workers.length := List.count_le_length _ _
    _ = C := hlen

/-- Witness for C8: the initial state of a pool of 2 workers over 3 items
has at most 2 calls in flight. -/
theorem concurrency_bound_witness : inFlight (poolInit 2) ≤ 2 :=
  concurrency_bound 2 3 (by omega) (poolInit 2) Relation.ReflTransGen.refl

/-! ## C9 — within-page duplicates are dispatched once per occurrence -/

/-- C9: when the same non-blank identifier occurs in two rows of one page,
both rows map to non-empty property sets, and the identifier is not in the
processed set at either occurrence during the scan (the membership test
runs while the page is scanned), then both rows are enqueued as pending
updates; the scan itself never adds an enqueued identifier (third
conjunct: the state right after pre is untouched by the enqueue of r1),
identifiers are only added during wave dispatch (fourth conjunct), and in
apply mode the oracle is attempted once per wave item, so a duplicated
identifier is attempted once per occurrence (second conjunct). -/
theorem within_page_duplicates (cfg : SyncConfig) (f : UpdateFn)
    (pre mid post : List Row) (r1 r2 : Row) (s0 : SyncState)
    (hid1 : extractId cfg.matching_id r1 ≠ "")
    (hid2 : extractId cfg.matching_id r2 = extractId cfg.matching_id r1)
    (hp1 : mapProps cfg r1 ≠ []) (hp2 : mapProps cfg r2 ≠ [])
    (hnp1 : extractId cfg.matching_id r1 ∉
      (scanRows cfg pre (s0, [])).1.processed)
    (hnp2 : extractId cfg.matching_id r1 ∉
      (scanRows cfg (pre ++ r1 :: mid) (s0, [])).1.processed) :
    (∃ b1 b2 b3,
       (scanRows cfg (pre ++ r1 :: (mid ++ r2 :: post)) (s0, [])).2 =
         b1 ++ ⟨extractId cfg.matching_id r1, mapProps cfg r1⟩ ::
           (b2 ++ ⟨extractId cfg.matching_id r1, mapProps cfg r2⟩ :: b3)) ∧
    (∀ (s : SyncState) (wave : List PendingUpdate),
       (applyWave cfg f s wave).attempted = s.attempted + wave.length) ∧
    ((scanRows cfg (pre ++ [r1]) (s0, [])).1.processed =
       (scanRows cfg pre (s0, [])).1.processed) ∧
    (∀ (s : SyncState) (wave : List PendingUpdate) (w : PendingUpdate),
       w ∈ wave → w.id ∈ (applyWave cfg f s wave).processed) := by
  have hnp1b : ¬(cfg.skipAlreadyProcessed = true ∧
      extractId cfg.matching_id r1 ∈ (scanRows cfg pre (s0, [])).1.processed) :=
    fun h => hnp1 h.2
  have hr1 : scanRow cfg (scanRows cfg pre (s0, [])) r1 =
      ((scanRows cfg pre (s0, [])).1,
       (scanRows cfg pre (s0, [])).2 ++
         [⟨extractId cfg.matching_id r1, mapProps cfg r1⟩]) :=
    scanRow_enqueue cfg (scanRows cfg pre (s0, [])).1
      (scanRows cfg pre (s0, [])).2 r1 hid1 hnp1b hp1
  have hsplit1 : scanRows cfg (pre ++ r1 :: (mid ++ r2 :: post)) (s0, []) =
      scanRows cfg (mid ++ r2 :: post)
        ((scanRows cfg pre (s0, [])).1,
         (scanRows cfg pre (s0, [])).2 ++
           [⟨extractId cfg.matching_id r1, mapProps cfg r1⟩]) := by
    rw [show pre ++ r1 :: (mid ++ r2 :: post) =
          pre ++ ([r1] ++ (mid ++ r2 :: post)) by simp]
    rw [scanRows_append, scanRows_append]
    rw [show scanRows cfg [r1] (scanRows cfg pre (s0, [])) =
          scanRow cfg (scanRows cfg pre (s0, [])) r1 from rfl, hr1]
  have hmidstate : (scanRows cfg (pre ++ r1 :: mid) (s0, [])).1 =
      (scanRows cfg mid ((scanRows cfg pre (s0, [])).1, [])).1 := by
    rw [show pre ++ r1 :: mid = pre ++ ([r1] ++ mid) by simp]
    rw [scanRows_append, scanRows_append]
    rw [show scanRows cfg [r1] (scanRows cfg pre (s0, [])) =
          scanRow cfg (scanRows cfg pre (s0, [])) r1 from rfl, hr1]
    rw [scanRows_batch cfg mid]
  have hnp2m : extractId cfg.matching_id r1 ∉
      (scanRows cfg mid ((scanRows cfg pre (s0, [])).1, [])).1.processed := by
    rw [← hmidstate]
    exact hnp2
  refine ⟨?_, ?_, ?_, ?_⟩
  · refine ⟨(scanRows cfg pre (s0, [])).2,
      (scanRows cfg mid ((scanRows cfg pre (s0, [])).1, [])).2,
      (scanRows cfg post
        ((scanRows cfg mid ((scanRows cfg pre (s0, [])).1, [])).1, [])).2, ?_⟩
    rw [hsplit1, scanRows_append]
    rw [scanRows_batch cfg mid]
    rw [show scanRows cfg (r2 :: post)
          ((scanRows cfg mid ((scanRows cfg pre (s0, [])).1, [])).1,
           ((scanRows cfg pre (s0, [])).2 ++
             [⟨extractId cfg.matching_id r1, mapProps cfg r1⟩]) ++
             (scanRows cfg mid ((scanRows cfg pre (s0, [])).1, [])).2) =
        scanRows cfg post
          (scanRow cfg
            ((scanRows cfg mid ((scanRows cfg pre (s0, [])).1, [])).1,
             ((scanRows cfg pre (s0, [])).2 ++
               [⟨extractId cfg.matching_id r1, mapProps cfg r1⟩]) ++
               (scanRows cfg mid ((scanRows cfg pre (s0, [])).1, [])).2) r2)
        from rfl]
    rw [scanRow_enqueue cfg _ _ r2 (by rw [hid2]; exact hid1)
      (by rw [hid2]; exact fun h => hnp2m h.2) hp2]
    rw [scanRows_batch cfg post]
    rw [hid2]
    simp
  · intro s wave
    rw [applyWave_eq]
    have h := saveCheckpoint_frame cfg
      { s with attempted := s.attempted + wave.length,
               updated := s.updated + wave.countP (okItem f),
               errors := s.errors ++ wave.filterMap (outcomeErr f),
               processed := addIds s.processed wave,
               csv := s.csv ++
                 (if cfg.hasOutputCsv ∧ wave ≠ [] then
                    wave.map (outcomeRow f) else []) }
    exact h.2.1
  · rw [scanRows_append]
    rw [show scanRows cfg [r1] (scanRows cfg pre (s0, [])) =
          scanRow cfg (scanRows cfg pre (s0, [])) r1 from rfl, hr1]
  · intro s wave w hw
    rw [applyWave_eq, saveCheckpoint_processed]
    exact mem_addIds.mpr (Or.inr ⟨w, hw, rfl⟩)

/-- Witness for C9: one page containing the same non-blank row twice; both
occurrences are enqueued as pending updates. -/
theorem within_page_duplicates_witness :
    ∃ b1 b2 b3,
      (scanRows cfgEx ([] ++ rowDup :: ([] ++ rowDup :: []))
        (initState [], [])).2 =
        b1 ++ ⟨extractId cfgEx.matching_id rowDup, mapProps cfgEx rowDup⟩ ::
          (b2 ++ ⟨extractId cfgEx.matching_id rowDup,
            mapProps cfgEx rowDup⟩ :: b3) :=
  (within_page_duplicates cfgEx fOk [] [] [] rowDup rowDup (initState [])
    (by decide) rfl (by decide) (by decide) (by decide) (by decide)).1

/-! ## C10 — the checkpoint file lags the in-memory processed set -/

/-- C10: the identifiers stored in the checkpoint file always form a subset
of the in-memory processed set — the inclusion is preserved by every scan
step, by every wave (the only places the file is written), and hence over
any whole page loop — and the two can genuinely differ at the end of a run:
in the concrete run whose single page holds one blank-only row, the scan
marks identifier "1" processed, no wave ever runs, `saveCheckpoint` is
never called, and "1" is missing from the final checkpoint file. -/
theorem checkpoint_file_lag (cfg : SyncConfig) (f : UpdateFn) :
    (∀ (acc : SyncState × List PendingUpdate) (r : Row),
       acc.1.ckptFile ⊆ acc.1.processed →
       (scanRow cfg acc r).1.ckptFile ⊆ (scanRow cfg acc r).1.processed) ∧
    (∀ (s : SyncState) (wave : List PendingUpdate),
       s.ckptFile ⊆ s.processed →
       (processWave cfg f s wave).ckptFile ⊆
         (processWave cfg f s wave).processed) ∧
    (∀ (pages : List Page) (s : SyncState),
       s.ckptFile ⊆ s.processed →
       (pageLoop cfg f pages s).ckptFile ⊆
         (pageLoop cfg f pages s).processed) ∧
    ("1" ∈ (runSyncCore cfgEx fOk [] pagesLag).processed ∧
     "1" ∉ (runSyncCore cfgEx fOk [] pagesLag).ckptFile) := by
  refine ⟨?_, ?_, ?_, by decide, by decide⟩
  · intro acc r hinv
    rw [(scanRow_frame cfg acc r).2.2.2.2.2]
    exact hinv.trans (scanRow_processed_mono cfg acc r)
  · intro s wave hinv
    cases hck : cfg.hasCheckpointPath with
    | true =>
      rw [processWave_ckptFile_of_save cfg f s wave hck]
      exact List.Subset.refl _
    | false =>
      rw [processWave_ckptFile_of_no_save cfg f s wave hck,
          processWave_processed]
      exact hinv.trans addIds_subset
  · intro pages s hinv
    exact (pageLoop_inv cfg f pages s hinv).1

/-- Witness for C10: the subset invariant instantiated on the concrete
blank-only run, with its hypothesis discharged at the initial state. -/
theorem checkpoint_file_lag_witness :
    (pageLoop cfgEx fOk pagesLag (initState [])).ckptFile ⊆
      (pageLoop cfgEx fOk pagesLag (initState [])).processed :=
  (checkpoint_file_lag cfgEx fOk).2.2.1 pagesLag (initState [])
    (List.Subset.refl _)

/-! ## Completion and error-propagation helpers -/

theorem pageLoopE_map_ok (cfg : SyncConfig) (f : UpdateFn) :
    ∀ (ps : List Page) (s : SyncState),
    pageLoopE cfg f (ps.map Except.ok) s = .ok (pageLoop cfg f ps s) := by
  intro ps
  induction ps with
  | nil => intro s; rfl
  | cons p rest ih =>
    intro s
    rw [List.map_cons]
    unfold pageLoopE pageLoop
    dsimp only
    by_cases hz : p.rows.length = 0
    · rw [if_pos hz, if_pos hz]
    · rw [if_neg hz, if_neg hz]
      cases htok : p.tok with
      | none => rfl
      | some t => exact ih _

theorem pageLoopE_error_pageFetch (cfg : SyncConfig) (f : UpdateFn) :
    ∀ (pgs : List (Except String Page)) (s : SyncState) (e : SyncError),
    pageLoopE cfg f pgs s = .error e →
    ∃ m, e = .pageFetch m ∧ Except.error m ∈ pgs := by
  intro pgs
  induction pgs with
  | nil =>
    intro s e h
    exact absurd h (by simp [pageLoopE])
  | cons q rest ih =>
    intro s e h
    cases q with
    | error m =>
      refine ⟨m, ?_, List.mem_cons_self _ _⟩
      unfold pageLoopE at h
      simp only [Except.error.injEq] at h
      exact h.symm
    | ok p =>
      unfold pageLoopE at h
      dsimp only at h
      by_cases hz : p.rows.length = 0
      · rw [if_pos hz] at h
        exact absurd h (by simp)
      · rw [if_neg hz] at h
        cases htok : p.tok with
        | none =>
          rw [htok] at h
          exact absurd h (by simp)
        | some t =>
          rw [htok] at h
          obtain ⟨m, hm, hmem⟩ := ih _ e h
          exact ⟨m, hm, List.mem_cons_of_mem _ hmem⟩

theorem validateConfig_error_config (raw : RawConfig) (e : SyncError)
    (h : validateConfig raw = .error e) : ∃ m, e = .config m := by
  unfold validateConfig at h
  split_ifs at h <;>
    first
      | (simp only [Except.error.injEq] at h; exact ⟨_, h.symm⟩)
      | (cases hp : raw.property <;>
          (rw [hp] at h; dsimp only at h) <;>
          first
            | (simp only [Except.error.injEq] at h; exact ⟨_, h.symm⟩)
            | (exact absurd h (by simp)))

theorem applyWave_attempted (cfg : SyncConfig) (f : UpdateFn) (s : SyncState)
    (wave : List PendingUpdate) :
    (applyWave cfg f s wave).attempted = s.attempted + wave.length := by
  rw [applyWave_eq]
  unfold saveCheckpoint
  split <;> rfl

theorem applyWave_updated (cfg : SyncConfig) (f : UpdateFn) (s : SyncState)
    (wave : List PendingUpdate) :
    (applyWave cfg f s wave).updated =
      s.updated + wave.countP (okItem f) := by
  rw [applyWave_eq]
  unfold saveCheckpoint
  split <;> rfl

theorem applyWave_errors (cfg : SyncConfig) (f : UpdateFn) (s : SyncState)
    (wave : List PendingUpdate) :
    (applyWave cfg f s wave).errors =
      s.errors ++ wave.filterMap (outcomeErr f) := by
  rw [applyWave_eq]
  unfold saveCheckpoint
  split <;> rfl

theorem applyWave_csv (cfg : SyncConfig) (f : UpdateFn) (s : SyncState)
    (wave : List PendingUpdate) :
    (applyWave cfg f s wave).csv =
      s.csv ++ (if cfg.hasOutputCsv ∧ wave ≠ [] then
        wave.map (outcomeRow f) else []) := by
  rw [applyWave_eq]
  unfold saveCheckpoint
  split <;> rfl

theorem applyWave_processed (cfg : SyncConfig) (f : UpdateFn) (s : SyncState)
    (wave : List PendingUpdate) :
    (applyWave cfg f s wave).processed = addIds s.processed wave := by
  rw [applyWave_eq, saveCheckpoint_processed]

/-! ## C2 — per-record failure isolation -/

/-- C2: in apply mode, for a wave in which exactly the item `wk` (at
position `pre.length`) throws and every other item succeeds, every item is
attempted, the other N−1 items are recorded as `UPDATED`, `wk` is recorded
as `ERROR` with its error detail both in the CSV and in the summary error
list, every identifier — including `wk`'s — joins the processed set, and
the run as a whole still completes and returns a summary (last conjunct:
with any such oracle, a validated run over successfully fetched pages
returns `.ok`). -/
theorem partial_failure_isolation (cfg : SyncConfig) (f : UpdateFn)
    (s : SyncState) (pre post : List PendingUpdate) (wk : PendingUpdate)
    (e : String)
    (hpre : ∀ w ∈ pre, f w.id w.properties = .ok ())
    (hpost : ∀ w ∈ post, f w.id w.properties = .ok ())
    (hk : f wk.id wk.properties = .error e)
    (hcsv : cfg.hasOutputCsv = true) :
    (applyWave cfg f s (pre ++ wk :: post)).attempted =
      s.attempted + (pre ++ wk :: post).length ∧
    (applyWave cfg f s (pre ++ wk :: post)).updated =
      s.updated + ((pre ++ wk :: post).length - 1) ∧
    (applyWave cfg f s (pre ++ wk :: post)).errors =
      s.errors ++ [⟨wk.id, e, wk.properties⟩] ∧
    (applyWave cfg f s (pre ++ wk :: post)).csv =
      s.csv ++
        (pre.map (fun w => ⟨w.id, "UPDATED", w.properties, ""⟩) ++
          ⟨wk.id, "ERROR", wk.properties, e⟩ ::
            post.map (fun w => ⟨w.id, "UPDATED", w.properties, ""⟩)) ∧
    (∀ w ∈ pre ++ wk :: post,
       w.id ∈ (applyWave cfg f s (pre ++ wk :: post)).processed) ∧
    wk.id ∈ (applyWave cfg f s (pre ++ wk :: post)).processed ∧
    (∀ (raw : RawConfig) (cfg2 : SyncConfig) (init2 : List String)
       (ps : List Page), validateConfig raw = .ok cfg2 →
       syncHubSpotPropertiesFromBigQuery raw (.ok ()) f init2
           (ps.map Except.ok) =
         .ok (runSyncCore cfg2 f init2 ps)) := by
  have hcount : (pre ++ wk :: post).countP (okItem f) =
      pre.length + post.length := by
    rw [List.countP_append, List.countP_cons]
    have h1 : pre.countP (okItem f) = pre.length :=
      List.countP_eq_length.mpr (fun w hw => by simp [okItem, hpre w hw])
    have h2 : post.countP (okItem f) = post.length :=
      List.countP_eq_length.mpr (fun w hw => by simp [okItem, hpost w hw])
    have h3 : okItem f wk = false := by simp [okItem, hk]
    rw [h1, h2, h3]
    simp
  have hlen : (pre ++ wk :: post).length = pre.length + post.length + 1 := by
    simp [List.length_append]
    omega
  refine ⟨applyWave_attempted cfg f s _, ?_, ?_, ?_, ?_, ?_, ?_⟩
  · rw [applyWave_updated, hcount, hlen]
    omega
  · rw [applyWave_errors, List.filterMap_append, List.filterMap_cons]
    have h1 : pre.filterMap (outcomeErr f) = [] :=
      List.filterMap_eq_nil.mpr (fun w hw => by simp [outcomeErr, hpre w hw])
    have h2 : post.filterMap (outcomeErr f) = [] :=
      List.filterMap_eq_nil.mpr (fun w hw => by simp [outcomeErr, hpost w hw])
    have h3 : outcomeErr f wk = some ⟨wk.id, e, wk.properties⟩ := by
      simp [outcomeErr, hk]
    rw [h1, h2, h3]
    simp
  · rw [applyWave_csv,
        if_pos (⟨hcsv, by simp⟩ :
          cfg.hasOutputCsv = true ∧ pre ++ wk :: post ≠ [])]
    congr 1
    rw [List.map_append, List.map_cons]
    have h1 : pre.map (outcomeRow f) =
        pre.map (fun w => (⟨w.id, "UPDATED", w.properties, ""⟩ : AuditRow)) :=
      List.map_congr_left (fun w hw => by simp [outcomeRow, hpre w hw])
    have h2 : post.map (outcomeRow f) =
        post.map (fun w => (⟨w.id, "UPDATED", w.properties, ""⟩ : AuditRow)) :=
      List.map_congr_left (fun w hw => by simp [outcomeRow, hpost w hw])
    have h3 : outcomeRow f wk = ⟨wk.id, "ERROR", wk.properties, e⟩ := by
      simp [outcomeRow, hk]
    rw [h1, h2, h3]
  · intro w hw
    rw [applyWave_processed]
    exact mem_addIds.mpr (Or.inr ⟨w, hw, rfl⟩)
  · rw [applyWave_processed]
    exact mem_addIds.mpr (Or.inr ⟨wk, by simp, rfl⟩)
  · intro raw cfg2 init2 ps hv
    unfold syncHubSpotPropertiesFromBigQuery
    rw [hv]
    exact pageLoopE_map_ok cfg2 f ps (initState init2)


/-- Witness for C2: a two-item wave whose second item always fails; the
summary error list records exactly that item. -/
theorem partial_failure_isolation_witness :
    (applyWave cfgEx fFail2 (initState [])
        ([⟨"1", [("p", JValue.str "x")]⟩] ++
          ⟨"2", [("p", JValue.str "y")]⟩ :: [])).errors =
      (initState []).errors ++ [⟨"2", "boom", [("p", JValue.str "y")]⟩] :=
  (partial_failure_isolation cfgEx fFail2 (initState [])
    [⟨"1", [("p", JValue.str "x")]⟩] [] ⟨"2", [("p", JValue.str "y")]⟩ "boom"
    (by intro w hw; rcases List.mem_singleton.mp hw with rfl; rfl)
    (fun w hw => absurd hw (List.not_mem_nil w))
    rfl rfl).2.2.1

/-! ## C3 — which errors propagate out of the run -/

/-- C3 (amended): every error thrown out of
`syncHubSpotPropertiesFromBigQuery` is a missing/invalid-configuration
error (raised by the validation block), a query-submission failure
(`createQueryJob` rejecting), or a page-fetch failure
(`job.getQueryResults` rejecting inside the uncaught page loop); and
whenever configuration, submission and every page fetch succeed, the run
never throws — whatever the per-record update oracle does, it returns the
summary of the core run, into which per-record failures are folded. -/
theorem error_propagation_policy (raw : RawConfig)
    (qs : Except String Unit) (f : UpdateFn) (init : List String)
    (pgs : List (Except String Page)) :
    (∀ e, syncHubSpotPropertiesFromBigQuery raw qs f init pgs = .error e →
       (∃ m, e = .config m ∧ validateConfig raw = .error (.config m)) ∨
       (∃ m, e = .querySubmit m ∧ qs = .error m) ∨
       (∃ m, e = .pageFetch m ∧ Except.error m ∈ pgs)) ∧
    (∀ (cfg : SyncConfig) (ps : List Page),
       validateConfig raw = .ok cfg → qs = .ok () →
       pgs = ps.map Except.ok →
       syncHubSpotPropertiesFromBigQuery raw qs f init pgs =
         .ok (runSyncCore cfg f init ps)) := by
  constructor
  · intro e he
    unfold syncHubSpotPropertiesFromBigQuery at he
    cases hv : validateConfig raw with
    | error ev =>
      rw [hv] at he
      simp only [Except.error.injEq] at he
      obtain ⟨m, hm⟩ := validateConfig_error_config raw ev hv
      subst he
      refine Or.inl ⟨m, hm, ?_⟩
      rw [hm]
    | ok cfg =>
      rw [hv] at he
      cases hq : qs with
      | error m =>
        rw [hq] at he
        simp only [Except.error.injEq] at he
        exact Or.inr (Or.inl ⟨m, he.symm, rfl⟩)
      | ok u =>
        rw [hq] at he
        obtain ⟨m, hm, hmem⟩ :=
          pageLoopE_error_pageFetch cfg f pgs (initState init) e he
        exact Or.inr (Or.inr ⟨m, hm, hmem⟩)
  · intro cfg ps hv hq hps
    subst hq hps
    unfold syncHubSpotPropertiesFromBigQuery
    rw [hv]
    exact pageLoopE_map_ok cfg f ps (initState init)


/-- Counterexample to C3 as stated: with a valid configuration and a
successful query submission, a rejected page fetch propagates out of the
run as a thrown error, and that error is neither a configuration error nor
a query-submission failure. -/
theorem error_propagation_policy_cex :
    syncHubSpotPropertiesFromBigQuery rawEx (Except.ok ()) fOk []
        [Except.error "network error"] =
      Except.error (.pageFetch "network error") ∧
    (∀ m, SyncError.pageFetch "network error" ≠ SyncError.config m) ∧
    (∀ m, SyncError.pageFetch "network error" ≠ SyncError.querySubmit m) := by
  refine ⟨rfl, ?_, ?_⟩ <;> (intro m h; cases h)

/-- Witness for C3: on an all-ok two-page stream the run returns the core
summary without throwing. -/
theorem error_propagation_policy_witness :
    syncHubSpotPropertiesFromBigQuery rawEx (Except.ok ()) fOk []
        ([⟨[rowDup], some "t"⟩, ⟨[], none⟩].map Except.ok) =
      .ok (runSyncCore cfgEx fOk [] [⟨[rowDup], some "t"⟩, ⟨[], none⟩]) :=
  (error_propagation_policy rawEx (Except.ok ()) fOk []
    ([⟨[rowDup], some "t"⟩, ⟨[], none⟩].map Except.ok)).2 cfgEx
    [⟨[rowDup], some "t"⟩, ⟨[], none⟩] rfl rfl rfl

/-! ## C1 — idempotency across reruns -/

/-- C1 (amended): rerunning the sync with the checkpoint file the first run
left behind performs zero update attempts (hence zero updates and no
errors), whatever the update oracles did in either run; the skipped count
of the second run equals the number of consumed row occurrences with a
non-blank identifier — which equals the number of distinct non-blank
identifiers only when no identifier occurs in more than one row. -/
theorem idempotent_rerun (cfg : SyncConfig) (f1 f2 : UpdateFn)
    (init : List String) (pages : List Page)
    (hskip : cfg.skipAlreadyProcessed = true)
    (hckpt : cfg.hasCheckpointPath = true) :
    (runSyncCore cfg f2 (runSyncCore cfg f1 init pages).ckptFile
       pages).attempted = 0 ∧
    (runSyncCore cfg f2 (runSyncCore cfg f1 init pages).ckptFile
       pages).updated = 0 ∧
    (runSyncCore cfg f2 (runSyncCore cfg f1 init pages).ckptFile
       pages).errors = [] ∧
    (runSyncCore cfg f2 (runSyncCore cfg f1 init pages).ckptFile
       pages).skipped =
      (consumedRows pages).countP
        (fun r => extractId cfg.matching_id r != "") := by
  have hinv0 : (initState init).ckptFile ⊆ (initState init).processed :=
    List.Subset.refl init
  have hcov : coveredBy cfg
      (initState (runSyncCore cfg f1 init pages).ckptFile).processed
      (consumedRows pages) := by
    intro pre r post hdec hid
    rcases pageLoop_covers cfg f1 hckpt pages (initState init) pre r post
        hinv0 hdec hid with h | h | h
    · exact Or.inl h
    · exact Or.inl ((pageLoop_inv cfg f1 pages (initState init) hinv0).2 h)
    · exact Or.inr h
  obtain ⟨c1, c2, c3, _, _, c6⟩ := pageLoop_rerun cfg f2 hskip pages
    (initState (runSyncCore cfg f1 init pages).ckptFile) hcov
  refine ⟨c1, c2, c3, ?_⟩
  show (pageLoop cfg f2 pages
      (initState (runSyncCore cfg f1 init pages).ckptFile)).skipped =
    (consumedRows pages).countP (fun r => extractId cfg.matching_id r != "")
  rw [c6]
  simp [initState]

/-- Counterexample to C1 as stated: a stream whose single page holds the
same non-blank row twice.  The first run dispatches both occurrences; the
second run performs zero updates but skips both occurrences, so its skipped
count is 2 while the number of distinct non-blank identifiers of the first
run is 1. -/
theorem idempotent_rerun_cex :
    (runSyncCore cfgEx fOk
       (runSyncCore cfgEx fOk [] pagesDup).ckptFile pagesDup).updated = 0 ∧
    (runSyncCore cfgEx fOk
       (runSyncCore cfgEx fOk [] pagesDup).ckptFile pagesDup).skipped = 2 ∧
    ((((consumedRows pagesDup).map (extractId cfgEx.matching_id)).filter
        (fun i => i != "")).dedup).length = 1 ∧
    (runSyncCore cfgEx fOk
       (runSyncCore cfgEx fOk [] pagesDup).ckptFile pagesDup).skipped ≠
      ((((consumedRows pagesDup).map (extractId cfgEx.matching_id)).filter
          (fun i => i != "")).dedup).length := by
  refine ⟨by decide, by decide, by decide, by decide⟩

/-- Witness for C1: the blank-only single-page stream; the second run
attempts nothing and skips the one non-blank-identifier row. -/
theorem idempotent_rerun_witness :
    (runSyncCore cfgEx fOk
       (runSyncCore cfgEx fOk [] pagesLag).ckptFile pagesLag).attempted = 0 ∧
    (runSyncCore cfgEx fOk
       (runSyncCore cfgEx fOk [] pagesLag).ckptFile pagesLag).updated = 0 ∧
    (runSyncCore cfgEx fOk
       (runSyncCore cfgEx fOk [] pagesLag).ckptFile pagesLag).errors = [] ∧
    (runSyncCore cfgEx fOk
       (runSyncCore cfgEx fOk [] pagesLag).ckptFile pagesLag).skipped =
      (consumedRows pagesLag).countP
        (fun r => extractId cfgEx.matching_id r != "") :=
  idempotent_rerun cfgEx fOk fOk [] pagesLag rfl rfl
